import Mathlib

/-!
Verification development for the omnifolio portfolio tracker.

We give a shallow embedding of the core components, translated from the
Python sources:
  * `Currency` and its operator factories        (structs/currency.py)
  * `PortfolioHoldings.trade` (parcel-list LIFO) (portfolio_holdings.py)
  * `PortfolioHoldingsAvgCost.trade`             (portfolio_holdings_avg_cost.py)
  * `MarketDataStore.update_stock_timeseries_daily` (market_data_store.py)
  * `MarketDataAggregator.stock_timeseries_daily__to_splitadjusted`
                                                 (market_data_aggregator.py)

Python `Fraction` values are embedded as `ℚ`, `datetime.date` values as `Nat`
ordinals, and `dict` objects as insertion-ordered association lists.  Python
exceptions are embedded as an explicit error type `PyErr`; a raise site in the
source corresponds to a distinct constructor.  Because Python exceptions leave
in-place mutations behind, the stateful `trade` methods are embedded as
functions returning `(Except PyErr result) × state`: the returned state is the
object state after the call, whether or not an exception escaped.
-/

/-- One constructor per relevant raise site in the Python sources. -/
inductive PyErr where
  /-- `ValueError` raised by `Currency._err_if_same_symbol` when the two
  symbols differ (currency.py line 218). -/
  | currencyMismatch : PyErr
  /-- `IndexError` from `holdings_list[-1]` on an empty list
  (portfolio_holdings.py line 109). -/
  | indexError : PyErr
  /-- `KeyError` from a plain `dict` subscript miss
  (portfolio_holdings_avg_cost.py line 111). -/
  | keyError : PyErr
  /-- A failed `assert` statement. -/
  | assertionError : PyErr
  /-- `ZeroDivisionError` from dividing a `Fraction` by zero. -/
  | zeroDivisionError : PyErr
  /-- `ValueError` "Attempted to sell more units than owned."
  (portfolio_holdings.py line 167). -/
  | valueErrorOversell : PyErr
  /-- `ValueError` "... Naked shorts are not implemented."
  (portfolio_holdings_avg_cost.py line 116). -/
  | valueErrorNakedShort : PyErr
  /-- `RuntimeError` "Unexpected trade type." (portfolio_holdings.py line 171). -/
  | runtimeErrorBadTradeType : PyErr
  /-- `RuntimeError` "Unexpected negative value for 'yet_to_dispose'."
  (portfolio_holdings.py line 169). -/
  | runtimeErrorNegativeYtd : PyErr
deriving DecidableEq, Repr

/-- `Currency` (structs/currency.py): an exact rational amount tagged with a
currency symbol.  `_value : Fraction` becomes `value : ℚ`. -/
structure Currency where
  symbol : String
  value : ℚ
deriving DecidableEq, Repr

namespace Currency

/-- `__add__` via `_binary_magic_calc_op("__add__", "only_between_currencies")`:
`_err_if_same_symbol` raises `ValueError` when the symbols differ, otherwise the
values are added.  (`isnan` is vacuous on exact rationals.) -/
def add (a b : Currency) : Except PyErr Currency :=
  if a.symbol = b.symbol then .ok ⟨a.symbol, a.value + b.value⟩
  else .error .currencyMismatch

/-- `__sub__` via `_binary_magic_calc_op("__sub__", "only_between_currencies")`. -/
def sub (a b : Currency) : Except PyErr Currency :=
  if a.symbol = b.symbol then .ok ⟨a.symbol, a.value - b.value⟩
  else .error .currencyMismatch

/-- `__mul__` via `_binary_magic_calc_op("__mul__", "only_with_dimensionless")`
applied to a dimensionless rational operand. -/
def mulScalar (a : Currency) (x : ℚ) : Currency :=
  ⟨a.symbol, a.value * x⟩

/-- `__truediv__` via `_binary_magic_division_op` with a dimensionless operand:
`Fraction.__truediv__` raises `ZeroDivisionError` on a zero divisor. -/
def divScalar (a : Currency) (x : ℚ) : Except PyErr Currency :=
  if x = 0 then .error .zeroDivisionError
  else .ok ⟨a.symbol, a.value / x⟩

/-- `_binary_magic_comparison_op(method)` between two `Currency` objects:
matching symbols are enforced by `_err_if_same_symbol`, then the comparison
`method` is applied to the two `_value` attributes.  The Python factory is
parameterized by the dunder name; we parameterize by the rational comparison. -/
def binaryComparisonOpCC (method : ℚ → ℚ → Bool) (a b : Currency) :
    Except PyErr Bool :=
  if a.symbol = b.symbol then .ok (method a.value b.value)
  else .error .currencyMismatch

/-- `_binary_magic_comparison_op(method)` between a `Currency` object and a
non-`Currency` numeric operand: the `else` branch compares `self._value`
directly against the operand; the currency symbol is never consulted and no
exception can be raised on this path. -/
def binaryComparisonOpScalar (method : ℚ → ℚ → Bool) (a : Currency) (x : ℚ) :
    Bool :=
  method a.value x

end Currency

/-!  Insertion-ordered association lists, embedding Python `dict` /
`defaultdict` objects.  Writing to an existing key updates it in place;
writing to a fresh key appends it, matching dict insertion order. -/

/-- `dict` lookup: first (unique) binding of the key, if any. -/
def alookup {K V : Type} [DecidableEq K] : List (K × V) → K → Option V
  | [], _ => none
  | (k', v) :: rest, k => if k = k' then some v else alookup rest k

/-- `dict` write `m[k] = v`: replace the binding in place, or append. -/
def aset {K V : Type} [DecidableEq K] : List (K × V) → K → V → List (K × V)
  | [], k, v => [(k, v)]
  | (k', v') :: rest, k, v =>
    if k = k' then (k, v) :: rest else (k', v') :: aset rest k v

/-- `del m[k]`: remove the binding of the key, if present. -/
def adel {K V : Type} [DecidableEq K] : List (K × V) → K → List (K × V)
  | [], _ => []
  | (k', v') :: rest, k => if k = k' then rest else (k', v') :: adel rest k

theorem alookup_aset_self {K V : Type} [DecidableEq K]
    (m : List (K × V)) (k : K) (v : V) : alookup (aset m k v) k = some v := by
  induction m with
  | nil => simp [aset, alookup]
  | cons h t ih =>
    by_cases hk : k = h.1
    · simp [aset, hk, alookup]
    · simpa [aset, hk, alookup] using ih

theorem alookup_aset_ne {K V : Type} [DecidableEq K]
    (m : List (K × V)) (k k' : K) (v : V) (h : k' ≠ k) :
    alookup (aset m k v) k' = alookup m k' := by
  induction m with
  | nil => simp [aset, alookup, h]
  | cons hd t ih =>
    by_cases hk : k = hd.1
    · subst hk
      simp [aset, alookup, h]
    · by_cases hk' : k' = hd.1
      · simp [aset, hk, alookup, hk']
      · simpa [aset, hk, alookup, hk'] using ih

theorem aset_alookup_eq {K V : Type} [DecidableEq K]
    (m : List (K × V)) (k : K) (v : V) (h : alookup m k = some v) :
    aset m k v = m := by
  induction m with
  | nil => simp [alookup] at h
  | cons hd t ih =>
    by_cases hk : k = hd.1
    · simp [alookup, hk] at h
      subst hk
      simp [aset, ← h]
    · simp [alookup, hk] at h
      simp [aset, hk, ih h]

theorem alookup_adel_ne {K V : Type} [DecidableEq K]
    (m : List (K × V)) (k k' : K) (h : k' ≠ k) :
    alookup (adel m k) k' = alookup m k' := by
  induction m with
  | nil => simp [adel]
  | cons hd t ih =>
    by_cases hk : k = hd.1
    · subst hk
      simp [adel, alookup, h]
    · by_cases hk' : k' = hd.1
      · simp [adel, hk, alookup, hk']
      · simpa [adel, hk, alookup, hk'] using ih

/-- `TradeInfo` (structs/namedtuples.py): the trade record consumed by the
holdings ledgers.  `unit_price` and `total_fees` are `Currency` values and
`unit_quantity` is an exact rational. -/
structure TradeInfo where
  comment : String
  trade_date : Nat
  account : String
  ric_symbol : String
  trade_type : String
  unit_quantity : ℚ
  unit_price : Currency
  total_fees : Currency
deriving DecidableEq, Repr

/-!  ## Parcel-list (LIFO) holdings ledger: portfolio_holdings.py -/

/-- One parcel dict appended by a buy (portfolio_holdings.py lines 73-78). -/
structure Lot where
  acquired_on : Nat
  unit_quantity : ℚ
  unit_price : Currency
  fees_per_unit : Currency
deriving DecidableEq, Repr

/-- Acquisition record placed in `acquired["stocks"]` on a buy
(portfolio_holdings.py lines 82-85). -/
structure LifoAcq where
  acquired_on : Nat
  unit_quantity : ℚ
  unit_price : Currency
  fees_per_unit : Currency
  account : String
  ric_symbol : String
deriving DecidableEq, Repr

/-- Disposal record placed in `disposed["stocks"]` on a sell
(portfolio_holdings.py lines 114-124 and 133-143). -/
structure LifoDisp where
  ric_symbol : String
  account : String
  acquired_on : Nat
  disposed_on : Nat
  unit_quantity : ℚ
  acquisition_unit_price : Currency
  disposal_unit_price : Currency
  acquisition_fees_per_unit : Currency
  disposal_fees_per_unit : Currency
deriving DecidableEq, Repr

/-- The `TradeDiff` namedtuple returned by `PortfolioHoldings.trade`
(the `"cryptocurrency": "NOT_IMPLEMENTED"` constant entries are omitted). -/
structure LifoTradeDiff where
  acquired_stocks : List LifoAcq
  acquired_currency : List Currency
  disposed_stocks : List LifoDisp
  disposed_currency : List Currency
deriving DecidableEq, Repr

/-- `self._stocks : {account : {symbol : [parcels]}}`, a
`defaultdict(lambda: defaultdict(list))`. -/
abbrev LifoStocks := List (String × List (String × List Lot))

/-- Read `self._stocks[account][symbol]` without the defaultdict vivification. -/
def lifoEntry (st : LifoStocks) (account symbol : String) : Option (List Lot) :=
  match alookup st account with
  | some inner => alookup inner symbol
  | none => none

/-- Write `self._stocks[account][symbol] = lots` (vivifying both levels). -/
def lifoSet (st : LifoStocks) (account symbol : String) (lots : List Lot) :
    LifoStocks :=
  aset st account (aset ((alookup st account).getD []) symbol lots)

/-- Disposal record built inside the sell loop for `qty` units taken from
`holding`. -/
def mkLifoDisp (t : TradeInfo) (holding : Lot) (feePU : Currency) (qty : ℚ) :
    LifoDisp :=
  ⟨t.ric_symbol, t.account, holding.acquired_on, t.trade_date, qty,
   holding.unit_price, t.unit_price, holding.fees_per_unit, feePU⟩

/-- The sell `while` loop (portfolio_holdings.py lines 108-148), acting on the
holdings list in reverse: the head of `rev` is `holdings_list[-1]`.  Returns
the remaining (reversed) list, the final `yet_to_dispose`, and the disposal
records in consumption order; `holdings_list[-1]` on an exhausted list raises
`IndexError`, at which point every parcel has already been deleted. -/
def consumeRev (t : TradeInfo) (feePU : Currency) :
    List Lot → ℚ → List LifoDisp → Except PyErr (List Lot × ℚ × List LifoDisp)
  | rev, ytd, acc =>
    if ytd ≤ 0 then .ok (rev, ytd, acc)
    else
      match rev with
      | [] => .error .indexError
      | holding :: rest =>
        if holding.unit_quantity > ytd then
          .ok ({holding with unit_quantity := holding.unit_quantity - ytd} :: rest,
               0, acc ++ [mkLifoDisp t holding feePU ytd])
        else
          consumeRev t feePU rest (ytd - holding.unit_quantity)
            (acc ++ [mkLifoDisp t holding feePU holding.unit_quantity])

/-- `PortfolioHoldings.trade` (portfolio_holdings.py lines 50-173), embedded
with explicit state passing.  The returned state is the object state after the
call even when an exception escapes (Python in-place mutations persist). -/
def PortfolioHoldings.trade (st : LifoStocks) (t : TradeInfo) :
    Except PyErr LifoTradeDiff × LifoStocks :=
  if t.trade_type = "buy" then
    match Currency.divScalar t.total_fees t.unit_quantity with
    | .error e => (.error e, st)
    | .ok feePU =>
      let lot : Lot := ⟨t.trade_date, t.unit_quantity, t.unit_price, feePU⟩
      let lots := (lifoEntry st t.account t.ric_symbol).getD []
      let st1 := lifoSet st t.account t.ric_symbol (lots ++ [lot])
      let acq : LifoAcq :=
        ⟨t.trade_date, t.unit_quantity, t.unit_price, feePU, t.account,
         t.ric_symbol⟩
      let a := t.unit_price.mulScalar t.unit_quantity
      let b := feePU.mulScalar t.unit_quantity
      let dispCur : List Currency :=
        if a.symbol = b.symbol then [⟨a.symbol, a.value + b.value⟩] else [b, a]
      (.ok ⟨[acq], [], [], dispCur⟩, st1)
  else if t.trade_type = "sell" then
    let lots := (lifoEntry st t.account t.ric_symbol).getD []
    let stV := lifoSet st t.account t.ric_symbol lots
    if ¬ 0 < t.unit_quantity then (.error .assertionError, stV)
    else
      match Currency.divScalar t.total_fees t.unit_quantity with
      | .error e => (.error e, stV)
      | .ok feePU =>
        match consumeRev t feePU lots.reverse t.unit_quantity [] with
        | .error e => (.error e, lifoSet stV t.account t.ric_symbol [])
        | .ok (rev', ytdFinal, disps) =>
          let st1 := lifoSet stV t.account t.ric_symbol rev'.reverse
          let a := t.unit_price.mulScalar t.unit_quantity
          let b := t.total_fees
          if ¬ (0 ≤ a.value ∧ 0 ≤ b.value) then (.error .assertionError, st1)
          else
            let acqDisp : List Currency × List Currency :=
              if a.symbol = b.symbol then
                let c : Currency := ⟨a.symbol, a.value - b.value⟩
                if 0 < c.value then ([c], [])
                else if c.value < 0 then ([], [c])
                else ([], [])
              else
                ((if 0 < a.value then [a] else []),
                 (if 0 < b.value then [b] else []))
            if 0 < ytdFinal then (.error .valueErrorOversell, st1)
            else if ytdFinal < 0 then (.error .runtimeErrorNegativeYtd, st1)
            else (.ok ⟨[], acqDisp.1, disps, acqDisp.2⟩, st1)
  else (.error .runtimeErrorBadTradeType, st)

/-!  ## Weighted-average holdings ledger: portfolio_holdings_avg_cost.py -/

/-- Per-(group, symbol) aggregate (portfolio_holdings_avg_cost.py lines 87-91). -/
structure AvgEntry where
  total_value : Currency
  total_fees : Currency
  unit_quantity : ℚ
deriving DecidableEq, Repr

/-- Acquisition record (portfolio_holdings_avg_cost.py lines 93-101);
`account` is `None` for this accounting method. -/
structure AvgAcq where
  account : Option String
  ric_symbol : String
  acquisition_date : Nat
  unit_price : Currency
  fees_per_unit : Currency
  unit_quantity : ℚ
deriving DecidableEq, Repr

/-- Disposal record (portfolio_holdings_avg_cost.py lines 123-136). -/
structure AvgDisp where
  account : Option String
  ric_symbol : String
  acquisition_date : Option Nat
  acquisition_unit_price : Currency
  acquisition_fees_per_unit : Currency
  disposal_date : Nat
  disposal_unit_price : Currency
  disposal_fees_per_unit : Currency
  unit_quantity : ℚ
deriving DecidableEq, Repr

/-- The `TradeDiff` returned by `PortfolioHoldingsAvgCost.trade`. -/
structure AvgTradeDiff where
  acquired_stocks : List AvgAcq
  acquired_currency : List Currency
  disposed_stocks : List AvgDisp
  disposed_currency : List Currency
deriving DecidableEq, Repr

/-- `self._stocks : {group : {symbol : aggregate}}`, a `defaultdict(dict)`. -/
abbrev AvgStocks := List (String × List (String × AvgEntry))

/-- Read `self._stocks[group][symbol]` without vivification. -/
def avgEntry (st : AvgStocks) (g symbol : String) : Option AvgEntry :=
  match alookup st g with
  | some inner => alookup inner symbol
  | none => none

/-- Write `self._stocks[group][symbol] = e` (vivifying the group level). -/
def avgSet (st : AvgStocks) (g symbol : String) (e : AvgEntry) : AvgStocks :=
  aset st g (aset ((alookup st g).getD []) symbol e)

/-- `PortfolioHoldingsAvgCost.trade` (portfolio_holdings_avg_cost.py lines
58-155), embedded with explicit state passing and an explicit `group_fn`.
Note: a `trade_type` that is neither `"buy"` nor `"sell"` falls through both
branches and returns an empty diff (the source has no `else` clause). -/
def PortfolioHoldingsAvgCost.trade (group_fn : TradeInfo → String)
    (st : AvgStocks) (t : TradeInfo) : Except PyErr AvgTradeDiff × AvgStocks :=
  if t.trade_type = "buy" then
    let g := group_fn t
    let inner := (alookup st g).getD []
    let stV := aset st g inner
    let afterUpdate : AvgStocks → Except PyErr AvgTradeDiff × AvgStocks :=
      fun st2 =>
        match Currency.divScalar t.total_fees t.unit_quantity with
        | .error e => (.error e, st2)
        | .ok fpu =>
          if ¬ (0 ≤ t.unit_price.value ∧ 0 ≤ t.total_fees.value) then
            (.error .assertionError, st2)
          else
            let acq : AvgAcq :=
              ⟨none, t.ric_symbol, t.trade_date, t.unit_price, fpu,
               t.unit_quantity⟩
            let dispCur :=
              [t.unit_price.mulScalar t.unit_quantity] ++
                (if 0 < t.total_fees.value then [t.total_fees] else [])
            (.ok ⟨[acq], [], [], dispCur⟩, st2)
    match alookup inner t.ric_symbol with
    | some d =>
      match d.total_value.add (t.unit_price.mulScalar t.unit_quantity) with
      | .error e => (.error e, stV)
      | .ok tv1 =>
        let st1 := avgSet stV g t.ric_symbol {d with total_value := tv1}
        match d.total_fees.add t.total_fees with
        | .error e => (.error e, st1)
        | .ok tf1 =>
          afterUpdate
            (avgSet st1 g t.ric_symbol
              ⟨tv1, tf1, d.unit_quantity + t.unit_quantity⟩)
    | none =>
      afterUpdate
        (avgSet stV g t.ric_symbol
          ⟨t.unit_price.mulScalar t.unit_quantity, t.total_fees,
           t.unit_quantity⟩)
  else if t.trade_type = "sell" then
    let g := group_fn t
    let inner := (alookup st g).getD []
    let stV := aset st g inner
    match alookup inner t.ric_symbol with
    | none => (.error .keyError, stV)
    | some d =>
      let remaining := d.unit_quantity - t.unit_quantity
      if remaining < 0 then (.error .valueErrorNakedShort, stV)
      else
        match Currency.divScalar d.total_value d.unit_quantity with
        | .error e => (.error e, stV)
        | .ok aup =>
          match Currency.divScalar d.total_fees d.unit_quantity with
          | .error e => (.error e, stV)
          | .ok afpu =>
            match Currency.divScalar t.total_fees t.unit_quantity with
            | .error e => (.error e, stV)
            | .ok dfpu =>
              let disp : AvgDisp :=
                ⟨none, t.ric_symbol, none, aup, afpu, t.trade_date,
                 t.unit_price, dfpu, t.unit_quantity⟩
              if ¬ (0 ≤ t.unit_price.value ∧ 0 ≤ t.total_fees.value) then
                (.error .assertionError, stV)
              else
                let acqCur := [t.unit_price.mulScalar t.unit_quantity]
                let dispCur :=
                  if 0 < t.total_fees.value then [t.total_fees] else []
                let diff : AvgTradeDiff := ⟨[], acqCur, [disp], dispCur⟩
                if 0 < remaining then
                  (.ok diff,
                   avgSet stV g t.ric_symbol
                     ⟨aup.mulScalar remaining, afpu.mulScalar remaining,
                      remaining⟩)
                else
                  let inner1 := adel ((alookup stV g).getD []) t.ric_symbol
                  let stD := aset stV g inner1
                  (.ok diff, if inner1.isEmpty then adel stD g else stD)
  else (.ok ⟨[], [], [], []⟩, st)

/-!  ## Market data store: market_data_store.py -/

/-- The columns written by the SQL `UPDATE ... SET` clause of
`_stock_timeseries_daily__update_data` (everything except the primary key).
The `split REAL` column is embedded as an exact rational stand-in; the store
claims only move it, they never compute with it. -/
structure Payload where
  data_trust_value : Int
  data_collection_time : Nat
  unit : String
  open_ : Int
  high : Int
  low : Int
  close : Int
  adjusted_close : Int
  price_denominator : Int
  volume : Int
  dividend_numerator : Int
  dividend_denominator : Int
  split : ℚ
deriving DecidableEq, Repr

/-- One row of the pulled `pandas.DataFrame`, indexed by date: its
`data_source` column plus the payload columns. -/
structure DfRow where
  data_source : String
  payload : Payload
deriving DecidableEq, Repr

/-- One stored row of the `stock_timeseries_daily` table, with primary key
`(symbol, date, data_source)`. -/
structure Row where
  symbol : String
  date : Nat
  data_source : String
  payload : Payload
deriving DecidableEq, Repr

/-- `_stock_timeseries_daily__get_dates_as_set`: the set of stored dates for
one `(symbol, data_source)` pair. -/
def storedDates (st : List Row) (symbol provider : String) : Finset Nat :=
  ((st.filter
      (fun r => decide (r.symbol = symbol ∧ r.data_source = provider))).map
    (fun r => r.date)).toFinset

/-- Membership in `dates_to_update = set(sorted(stored_dates)[-5:])`: `d` is a
stored date with fewer than five stored dates above it.  (When fewer than five
dates are stored this is all of them, and when no dates are stored at all the
Python guard `len(stored_dates) > 0` skips the update phase — equivalently, no
date satisfies this predicate.) -/
def inWindow (S : Finset Nat) (d : Nat) : Prop :=
  d ∈ S ∧ (S.filter (fun x => d < x)).card < 5

instance (S : Finset Nat) (d : Nat) : Decidable (inWindow S d) := by
  unfold inWindow
  infer_instance

/-- The effect of the update phase on one stored row: the SQL `UPDATE`
(which keys on `symbol`, `date` and the *pulled row's* `data_source` and
rewrites only the non-key columns) fires for the dates in
`pulled_dates & dates_to_update`. -/
def updateRow (symbol : String) (S : Finset Nat) (df : List (Nat × DfRow))
    (r : Row) : Row :=
  match alookup df r.date with
  | some v =>
    if r.symbol = symbol ∧ r.data_source = v.data_source ∧ inWindow S r.date
    then {r with payload := v.payload}
    else r
  | none => r

/-- `dates_missing_in_store = pulled_dates - stored_dates` (iterated as a set:
each pulled date at most once). -/
def missingDates (df : List (Nat × DfRow)) (S : Finset Nat) : List Nat :=
  ((df.map Prod.fst).dedup).filter (fun d => decide (d ∉ S))

/-- The rows appended by the insert phase
(`_stock_timeseries_daily__add_data`): the pulled rows whose dates are missing
from storage, inserted with the pulled row's `data_source`. -/
def insertedRows (symbol : String) (df : List (Nat × DfRow))
    (S : Finset Nat) : List Row :=
  (missingDates df S).filterMap
    (fun d => (alookup df d).map (fun v => Row.mk symbol d v.data_source v.payload))

/-- `MarketDataStore.update_stock_timeseries_daily` (market_data_store.py
lines 167-228): overwrite the stored rows whose dates fall in the recent
five-date revision window and also occur in the pulled series, then insert
rows for all pulled dates absent from storage. -/
def MarketDataStore.update_stock_timeseries_daily (st : List Row)
    (symbol provider_name : String) (df : List (Nat × DfRow)) : List Row :=
  let stored := storedDates st symbol provider_name
  (st.map (updateRow symbol stored df)) ++ insertedRows symbol df stored

/-!  ## Split-adjusted view: market_data_aggregator.py -/

/-- One row of a per-symbol series as produced by
`stock_timeseries_daily__convert_numerics_to_object_types`: price and dividend
columns are exact `Currency` values, volume and split are exact rationals. -/
structure PriceRow where
  open_ : Currency
  high : Currency
  low : Currency
  close : Currency
  adjusted_close : Currency
  volume : ℚ
  exdividend : Currency
  split : ℚ
deriving DecidableEq, Repr

/-- `Series.cumprod`: running products of the split column. -/
def cumprodAux (acc : ℚ) : List ℚ → List ℚ
  | [] => []
  | x :: xs => (acc * x) :: cumprodAux (acc * x) xs

/-- `df["split"].cumprod()`. -/
def cumprod (l : List ℚ) : List ℚ := cumprodAux 1 l

/-- `MarketDataAggregator.stock_timeseries_daily__to_splitadjusted`
(market_data_aggregator.py lines 188-214) for a single symbol's series:
multiply the OHLC / adjusted-close / ex-dividend columns by
`cum_split / latest_cum_split` and the volume column by the inverse ratio.
`[-1]` on an empty series raises `IndexError`; a zero divisor in either
elementwise `Fraction` division raises `ZeroDivisionError`. -/
def MarketDataAggregator.stock_timeseries_daily__to_splitadjusted
    (rows : List PriceRow) : Except PyErr (List PriceRow) :=
  match (cumprod (rows.map (fun r => r.split))).getLast? with
  | none => .error .indexError
  | some latest =>
    if latest = 0 then .error .zeroDivisionError
    else if (cumprod (rows.map (fun r => r.split))).any
        (fun c => decide (c = 0)) then .error .zeroDivisionError
    else
      .ok ((rows.zip (cumprod (rows.map (fun r => r.split)))).map (fun p =>
        { p.1 with
          open_ := p.1.open_.mulScalar (p.2 / latest)
          high := p.1.high.mulScalar (p.2 / latest)
          low := p.1.low.mulScalar (p.2 / latest)
          close := p.1.close.mulScalar (p.2 / latest)
          adjusted_close := p.1.adjusted_close.mulScalar (p.2 / latest)
          exdividend := p.1.exdividend.mulScalar (p.2 / latest)
          volume := p.1.volume * (latest / p.2) }))

deriving instance DecidableEq for Except

/-!  ## Helper lemmas -/

theorem alookup_mem {K V : Type} [DecidableEq K]
    (m : List (K × V)) (k : K) (v : V) (h : alookup m k = some v) :
    (k, v) ∈ m := by
  induction m with
  | nil => simp [alookup] at h
  | cons hd t ih =>
    by_cases hk : k = hd.1
    · simp [alookup, hk] at h
      subst hk
      simp [← h]
    · simp [alookup, hk] at h
      exact List.mem_cons_of_mem _ (ih h)

theorem mem_aset {K V : Type} [DecidableEq K]
    (m : List (K × V)) (k : K) (v : V) (p : K × V) (h : p ∈ aset m k v) :
    p ∈ m ∨ p = (k, v) := by
  induction m with
  | nil => simp [aset] at h; simp [h]
  | cons hd t ih =>
    by_cases hk : k = hd.1
    · simp [aset, hk] at h
      rcases h with h | h
      · right; simp [h, hk]
      · left; exact List.mem_cons_of_mem _ h
    · simp [aset, hk] at h
      rcases h with h | h
      · left; simp [h]
      · rcases ih h with h2 | h2
        · left; exact List.mem_cons_of_mem _ h2
        · right; exact h2

theorem mem_adel {K V : Type} [DecidableEq K]
    (m : List (K × V)) (k : K) (p : K × V) (h : p ∈ adel m k) : p ∈ m := by
  induction m with
  | nil => simp [adel] at h
  | cons hd t ih =>
    by_cases hk : k = hd.1
    · simp [adel, hk] at h
      exact List.mem_cons_of_mem _ h
    · simp [adel, hk] at h
      rcases h with h | h
      · simp [h]
      · exact List.mem_cons_of_mem _ (ih h)

theorem keys_aset_nodup {K V : Type} [DecidableEq K]
    (m : List (K × V)) (k : K) (v : V) (h : (m.map Prod.fst).Nodup) :
    ((aset m k v).map Prod.fst).Nodup := by
  induction m with
  | nil => simp [aset]
  | cons hd t ih =>
    simp only [List.map_cons, List.nodup_cons] at h
    by_cases hk : k = hd.1
    · subst hk
      rw [show aset (hd :: t) hd.1 v = (hd.1, v) :: t from by simp [aset]]
      simp only [List.map_cons, List.nodup_cons]
      exact h
    · rw [show aset (hd :: t) k v = hd :: aset t k v from by simp [aset, hk]]
      simp only [List.map_cons, List.nodup_cons]
      refine ⟨?_, ih h.2⟩
      intro hmem
      obtain ⟨p, hp, hfst⟩ := List.mem_map.mp hmem
      rcases mem_aset t k v p hp with h2 | h2
      · exact h.1 (by rw [← hfst]; exact List.mem_map_of_mem Prod.fst h2)
      · exact hk (by rw [h2] at hfst; exact hfst)

theorem alookup_adel_self {K V : Type} [DecidableEq K]
    (m : List (K × V)) (k : K) (h : (m.map Prod.fst).Nodup) :
    alookup (adel m k) k = none := by
  induction m with
  | nil => rfl
  | cons hd t ih =>
    simp only [List.map_cons, List.nodup_cons] at h
    by_cases hk : k = hd.1
    · subst hk
      rw [show adel (hd :: t) hd.1 = t from by simp [adel]]
      cases hl : alookup t hd.1 with
      | none => rfl
      | some v =>
        exact absurd
          (List.mem_map_of_mem Prod.fst (alookup_mem t hd.1 v hl)) h.1
    · rw [show adel (hd :: t) k = hd :: adel t k from by simp [adel, hk]]
      rw [show alookup (hd :: adel t k) k = alookup (adel t k) k from by
        simp [alookup, hk]]
      exact ih h.2

theorem Currency.mulScalar_one (c : Currency) : c.mulScalar 1 = c := by
  cases c
  simp [Currency.mulScalar]

theorem cumprodAux_all_one (l : List ℚ) (h : ∀ x ∈ l, x = 1) :
    ∀ acc, cumprodAux acc l = l.map (fun _ => acc) := by
  induction l with
  | nil => intro acc; rfl
  | cons x xs ih =>
    intro acc
    have hx : x = 1 := h x (by simp)
    have ihh := ih (fun y hy => h y (by simp [hy])) acc
    simp [cumprodAux, hx, ihh]

theorem getLast?_map_const {α β : Type} (l : List α) (x : β) (h : l ≠ []) :
    (l.map (fun _ => x)).getLast? = some x := by
  induction l with
  | nil => cases h rfl
  | cons a t ih =>
    cases t with
    | nil => rfl
    | cons b t2 => simpa [List.getLast?_cons_cons] using ih (by simp)

theorem zip_replicate_one_adjust (rows : List PriceRow) :
    (rows.zip (List.replicate rows.length (1:ℚ))).map (fun p =>
      { open_ := p.1.open_.mulScalar p.2
        high := p.1.high.mulScalar p.2
        low := p.1.low.mulScalar p.2
        close := p.1.close.mulScalar p.2
        adjusted_close := p.1.adjusted_close.mulScalar p.2
        volume := p.1.volume * p.2⁻¹
        exdividend := p.1.exdividend.mulScalar p.2
        split := p.1.split : PriceRow }) = rows := by
  induction rows with
  | nil => rfl
  | cons r rs ih =>
    simp only [List.length_cons, List.replicate_succ, List.zip_cons_cons,
      List.map_cons, ih]
    simp [Currency.mulScalar_one]

/-!  ## Claims about Currency (C7, C10) -/

/-- C7: between two `Currency` values, the binary add, subtract and comparison
operations raise the currency-mismatch `ValueError` whenever the tags differ,
and when the tags are identical they return the exact rational result on the
shared tag (for comparisons, the comparison of the two exact values). -/
theorem currency_binary_ops_enforce_matching_tags (a b : Currency) :
    (a.symbol ≠ b.symbol →
      a.add b = .error .currencyMismatch ∧
      a.sub b = .error .currencyMismatch ∧
      ∀ method : ℚ → ℚ → Bool,
        Currency.binaryComparisonOpCC method a b = .error .currencyMismatch) ∧
    (a.symbol = b.symbol →
      a.add b = .ok ⟨a.symbol, a.value + b.value⟩ ∧
      a.sub b = .ok ⟨a.symbol, a.value - b.value⟩ ∧
      ∀ method : ℚ → ℚ → Bool,
        Currency.binaryComparisonOpCC method a b = .ok (method a.value b.value)) := by
  constructor <;> intro h <;>
    simp [Currency.add, Currency.sub, Currency.binaryComparisonOpCC, h]

theorem currency_binary_ops_enforce_matching_tags_witness :
    (Currency.add ⟨"USD", 5⟩ ⟨"AUD", 3⟩ = .error .currencyMismatch) ∧
    (Currency.add ⟨"USD", 5⟩ ⟨"USD", 3⟩ = .ok ⟨"USD", 5 + 3⟩) :=
  ⟨((currency_binary_ops_enforce_matching_tags ⟨"USD", 5⟩ ⟨"AUD", 3⟩).1
      (by decide)).1,
   ((currency_binary_ops_enforce_matching_tags ⟨"USD", 5⟩ ⟨"USD", 3⟩).2
      rfl).1⟩

/-- C10: comparing a `Currency` value against a non-`Currency` numeric operand
compares only the numeric amount and ignores the currency tag entirely; the
operation is total (no error path), and a value of 5 in any currency compares
equal to the bare number 5. -/
theorem currency_scalar_comparisons_ignore_tag (method : ℚ → ℚ → Bool)
    (c : Currency) (x : ℚ) (s : String) :
    Currency.binaryComparisonOpScalar method c x = method c.value x ∧
    Currency.binaryComparisonOpScalar method ⟨s, c.value⟩ x =
      Currency.binaryComparisonOpScalar method c x ∧
    Currency.binaryComparisonOpScalar (fun u v => decide (u = v)) ⟨s, 5⟩ 5 =
      true := by
  refine ⟨rfl, rfl, by simp [Currency.binaryComparisonOpScalar]⟩

/-!  ## Split-adjustment no-op (C9) -/

/-- C9: when the split column is identically 1 (so the cumulative split factor
is 1 at every date), the split-adjustment view returns the series exactly
unchanged on every column. -/
theorem splitadjusted_noop_on_unit_splits (rows : List PriceRow)
    (hne : rows ≠ []) (h1 : ∀ r ∈ rows, r.split = 1) :
    MarketDataAggregator.stock_timeseries_daily__to_splitadjusted rows =
      .ok rows := by
  have hall : ∀ x ∈ rows.map (fun r => r.split), x = 1 := by
    intro x hx
    obtain ⟨r, hr, rfl⟩ := List.mem_map.mp hx
    exact h1 r hr
  have hc : cumprod (rows.map (fun r => r.split)) =
      rows.map (fun _ => (1:ℚ)) := by
    rw [cumprod, cumprodAux_all_one _ hall, List.map_map]
    rfl
  unfold MarketDataAggregator.stock_timeseries_daily__to_splitadjusted
  rw [hc, getLast?_map_const _ _ hne]
  norm_num [List.any_map, Function.comp]
  exact zip_replicate_one_adjust rows

theorem splitadjusted_noop_on_unit_splits_witness :
    MarketDataAggregator.stock_timeseries_daily__to_splitadjusted
      [⟨⟨"USD", 1⟩, ⟨"USD", 2⟩, ⟨"USD", 3⟩, ⟨"USD", 4⟩, ⟨"USD", 5⟩, 100,
        ⟨"USD", 0⟩, 1⟩] =
      .ok [⟨⟨"USD", 1⟩, ⟨"USD", 2⟩, ⟨"USD", 3⟩, ⟨"USD", 4⟩, ⟨"USD", 5⟩, 100,
        ⟨"USD", 0⟩, 1⟩] :=
  splitadjusted_noop_on_unit_splits _ (by decide) (by decide)

/-!  ## LIFO ledger claims (C6, C8, C1, C2) -/

/-- C6: under the parcel-list strategy a sell consumes lots most recently
acquired first.  `consumeRev` processes the reversed lot list, so its head is
the tail (`holdings_list[-1]`) of the holdings list: when that lot is larger
than the quantity still to dispose it is split in place and the loop stops;
otherwise it is fully consumed, removed, and the loop repeats on the rest.
For the example — buys at t1 (qty 10, price 100) then t2 (qty 5, price 200),
then a sell of qty 3 — the final holdings hold the t1 lot untouched at qty 10
and the t2 lot reduced to qty 2. -/
theorem lifo_sell_consumes_tail_first :
    (∀ (t : TradeInfo) (fpu : Currency) (l : Lot) (rev : List Lot) (q : ℚ)
        (acc : List LifoDisp), 0 < q → q < l.unit_quantity →
      consumeRev t fpu (l :: rev) q acc =
        .ok ({l with unit_quantity := l.unit_quantity - q} :: rev, 0,
             acc ++ [mkLifoDisp t l fpu q])) ∧
    (∀ (t : TradeInfo) (fpu : Currency) (l : Lot) (rev : List Lot) (q : ℚ)
        (acc : List LifoDisp), 0 < q → l.unit_quantity ≤ q →
      consumeRev t fpu (l :: rev) q acc =
        consumeRev t fpu rev (q - l.unit_quantity)
          (acc ++ [mkLifoDisp t l fpu l.unit_quantity])) ∧
    (PortfolioHoldings.trade
        (PortfolioHoldings.trade
          (PortfolioHoldings.trade []
            ⟨"", 1, "acct", "SYM", "buy", 10, ⟨"USD", 100⟩, ⟨"USD", 0⟩⟩).2
          ⟨"", 2, "acct", "SYM", "buy", 5, ⟨"USD", 200⟩, ⟨"USD", 0⟩⟩).2
        ⟨"", 3, "acct", "SYM", "sell", 3, ⟨"USD", 150⟩, ⟨"USD", 0⟩⟩).2 =
      [("acct", [("SYM",
        [⟨1, 10, ⟨"USD", 100⟩, ⟨"USD", 0⟩⟩,
         ⟨2, 2, ⟨"USD", 200⟩, ⟨"USD", 0⟩⟩])])] := by
  refine ⟨?_, ?_, by
    norm_num [PortfolioHoldings.trade, consumeRev, lifoSet, lifoEntry,
      alookup, aset, Currency.divScalar, Currency.mulScalar, mkLifoDisp,
      (show ("sell" : String) ≠ "buy" by decide)]⟩
  · intro t fpu l rev q acc hq hlt
    simp [consumeRev, not_le.mpr hq, hlt]
  · intro t fpu l rev q acc hq hle
    simp [consumeRev, not_le.mpr hq, not_lt.mpr hle]

theorem lifo_sell_consumes_tail_first_witness :
    (consumeRev ⟨"", 3, "acct", "SYM", "sell", 3, ⟨"USD", 150⟩, ⟨"USD", 0⟩⟩
        ⟨"USD", 0⟩
        [⟨2, 5, ⟨"USD", 200⟩, ⟨"USD", 0⟩⟩, ⟨1, 10, ⟨"USD", 100⟩, ⟨"USD", 0⟩⟩]
        3 [] =
      .ok (⟨2, 5 - 3, ⟨"USD", 200⟩, ⟨"USD", 0⟩⟩ ::
             [⟨1, 10, ⟨"USD", 100⟩, ⟨"USD", 0⟩⟩], 0,
           [] ++ [mkLifoDisp
             ⟨"", 3, "acct", "SYM", "sell", 3, ⟨"USD", 150⟩, ⟨"USD", 0⟩⟩
             ⟨2, 5, ⟨"USD", 200⟩, ⟨"USD", 0⟩⟩ ⟨"USD", 0⟩ 3])) ∧
    (consumeRev ⟨"", 3, "acct", "SYM", "sell", 7, ⟨"USD", 150⟩, ⟨"USD", 0⟩⟩
        ⟨"USD", 0⟩
        [⟨2, 5, ⟨"USD", 200⟩, ⟨"USD", 0⟩⟩, ⟨1, 10, ⟨"USD", 100⟩, ⟨"USD", 0⟩⟩]
        7 [] =
      consumeRev ⟨"", 3, "acct", "SYM", "sell", 7, ⟨"USD", 150⟩, ⟨"USD", 0⟩⟩
        ⟨"USD", 0⟩ [⟨1, 10, ⟨"USD", 100⟩, ⟨"USD", 0⟩⟩] (7 - 5)
        ([] ++ [mkLifoDisp
          ⟨"", 3, "acct", "SYM", "sell", 7, ⟨"USD", 150⟩, ⟨"USD", 0⟩⟩
          ⟨2, 5, ⟨"USD", 200⟩, ⟨"USD", 0⟩⟩ ⟨"USD", 0⟩ 5])) :=
  ⟨lifo_sell_consumes_tail_first.1 _ _ _ _ _ _ (by norm_num) (by norm_num),
   lifo_sell_consumes_tail_first.2.1 _ _ _ _ _ _ (by norm_num) (by norm_num)⟩

/-- C8 counterexample: in the parcel-list model, a successful sell of 5 units
at 100 USD with 10 USD fees (same currency as the proceeds) records the *net*
amount 490 USD in the acquired-currency list and records nothing at all in the
disposed-currency list — not the gross proceeds 500 USD plus a separate 10 USD
fee entry that the claim describes. -/
theorem lifo_sell_diff_nets_proceeds_and_fees :
    (PortfolioHoldings.trade
        (PortfolioHoldings.trade []
          ⟨"", 1, "acct", "SYM", "buy", 10, ⟨"USD", 100⟩, ⟨"USD", 0⟩⟩).2
        ⟨"", 2, "acct", "SYM", "sell", 5, ⟨"USD", 100⟩, ⟨"USD", 10⟩⟩).1 =
      .ok ⟨[], [⟨"USD", 490⟩],
           [⟨"SYM", "acct", 1, 2, 5, ⟨"USD", 100⟩, ⟨"USD", 100⟩, ⟨"USD", 0⟩,
             ⟨"USD", 2⟩⟩],
           []⟩ := by
  norm_num [PortfolioHoldings.trade, consumeRev, lifoSet, lifoEntry,
      alookup, aset, Currency.divScalar, Currency.mulScalar, mkLifoDisp,
      (show ("sell" : String) ≠ "buy" by decide)]

/-- C1 (failing input): the LIFO sell loop reads `holdings_list[-1]`, so a
sell of 15 units against a single lot of 10 deletes every lot and then raises
`IndexError` — not the insufficient-holdings `ValueError` — leaving the ledger
mutated (the entry survives as an empty lot list); and in the average-cost
model a sell of an untracked symbol raises `KeyError` from the plain dict
subscript, after vivifying the group key. -/
theorem lifo_oversell_mutates_state_and_raises_wrong_error :
    (PortfolioHoldings.trade
        (PortfolioHoldings.trade []
          ⟨"", 1, "acct", "SYM", "buy", 10, ⟨"USD", 100⟩, ⟨"USD", 0⟩⟩).2
        ⟨"", 2, "acct", "SYM", "sell", 15, ⟨"USD", 100⟩, ⟨"USD", 0⟩⟩ =
      (.error .indexError, [("acct", [("SYM", [])])])) ∧
    ([("acct", [("SYM", [])])] : LifoStocks) ≠
      (PortfolioHoldings.trade []
        ⟨"", 1, "acct", "SYM", "buy", 10, ⟨"USD", 100⟩, ⟨"USD", 0⟩⟩).2 ∧
    (PortfolioHoldingsAvgCost.trade (fun t => t.account) []
        ⟨"", 1, "acct", "SYM", "sell", 5, ⟨"USD", 100⟩, ⟨"USD", 0⟩⟩ =
      (.error .keyError, [("acct", [])])) := by
  refine ⟨?_, ?_, ?_⟩
  · norm_num [PortfolioHoldings.trade, consumeRev, lifoSet, lifoEntry,
      alookup, aset, Currency.divScalar, Currency.mulScalar, mkLifoDisp,
      (show ("sell" : String) ≠ "buy" by decide)]
  · norm_num [PortfolioHoldings.trade, lifoSet, lifoEntry, alookup, aset,
      Currency.divScalar]
  · norm_num [PortfolioHoldingsAvgCost.trade, avgSet, avgEntry, alookup, aset,
      adel, (show ("sell" : String) ≠ "buy" by decide)]

/-- C2 counterexample: in the parcel-list model, a sell that exactly exhausts
the position succeeds but leaves the (account, symbol) key *present with an
empty lot list* instead of deleting it. -/
theorem lifo_exhausting_sell_keeps_key_with_empty_lots :
    (PortfolioHoldings.trade
        (PortfolioHoldings.trade []
          ⟨"", 1, "acct", "SYM", "buy", 10, ⟨"USD", 100⟩, ⟨"USD", 0⟩⟩).2
        ⟨"", 2, "acct", "SYM", "sell", 10, ⟨"USD", 100⟩, ⟨"USD", 0⟩⟩ =
      (.ok ⟨[], [⟨"USD", 1000⟩],
            [⟨"SYM", "acct", 1, 2, 10, ⟨"USD", 100⟩, ⟨"USD", 100⟩, ⟨"USD", 0⟩,
              ⟨"USD", 0⟩⟩],
            []⟩,
       [("acct", [("SYM", [])])])) ∧
    lifoEntry [("acct", [("SYM", [])])] "acct" "SYM" = some [] := by
  refine ⟨by norm_num [PortfolioHoldings.trade, consumeRev, lifoSet, lifoEntry,
      alookup, aset, Currency.divScalar, Currency.mulScalar, mkLifoDisp,
      (show ("sell" : String) ≠ "buy" by decide)], by norm_num [lifoEntry, alookup]⟩

/-!  ## Weighted-average ledger claims (C5, C8, C2, C1) -/

theorem avgEntry_avgSet_self (st : AvgStocks) (g sym : String) (e : AvgEntry) :
    avgEntry (avgSet st g sym e) g sym = some e := by
  unfold avgEntry avgSet
  rw [alookup_aset_self]
  exact alookup_aset_self _ _ _

/-- Full characterization of a partial sell in the weighted-average ledger:
with an existing aggregate `d` and `0 < qty < d.unit_quantity`, the trade
succeeds, emits one disposal at the blended acquisition price
`total_value / unit_quantity`, reports the gross proceeds as acquired cash and
the fees (when positive) as disposed cash, and rescales the aggregate
proportionally. -/
theorem avgTrade_sell_partial (g : TradeInfo → String) (st : AvgStocks)
    (t : TradeInfo) (d : AvgEntry)
    (ht : t.trade_type = "sell")
    (hd : avgEntry st (g t) t.ric_symbol = some d)
    (hq : 0 < t.unit_quantity)
    (hlt : t.unit_quantity < d.unit_quantity)
    (hp : 0 ≤ t.unit_price.value)
    (hf : 0 ≤ t.total_fees.value) :
    PortfolioHoldingsAvgCost.trade g st t =
      (.ok ⟨[], [t.unit_price.mulScalar t.unit_quantity],
        [⟨none, t.ric_symbol, none,
          ⟨d.total_value.symbol, d.total_value.value / d.unit_quantity⟩,
          ⟨d.total_fees.symbol, d.total_fees.value / d.unit_quantity⟩,
          t.trade_date, t.unit_price,
          ⟨t.total_fees.symbol, t.total_fees.value / t.unit_quantity⟩,
          t.unit_quantity⟩],
        if 0 < t.total_fees.value then [t.total_fees] else []⟩,
       avgSet st (g t) t.ric_symbol
         ⟨⟨d.total_value.symbol,
           d.total_value.value / d.unit_quantity *
             (d.unit_quantity - t.unit_quantity)⟩,
          ⟨d.total_fees.symbol,
           d.total_fees.value / d.unit_quantity *
             (d.unit_quantity - t.unit_quantity)⟩,
          d.unit_quantity - t.unit_quantity⟩) := by
  unfold avgEntry at hd
  cases hst : alookup st (g t) with
  | none => rw [hst] at hd; cases hd
  | some inner =>
    simp only [hst] at hd
    have htq : t.unit_quantity ≠ 0 := ne_of_gt hq
    have hdq : d.unit_quantity ≠ 0 := ne_of_gt (lt_trans hq hlt)
    have hrem : ¬ (d.unit_quantity - t.unit_quantity < 0) := by linarith
    have hrem2 : 0 < d.unit_quantity - t.unit_quantity := by linarith
    unfold PortfolioHoldingsAvgCost.trade
    rw [ht]
    rw [if_neg (show ("sell" : String) ≠ "buy" by decide), if_pos rfl]
    simp only [hst, Option.getD_some, hd, Currency.divScalar, if_neg hdq,
      if_neg htq, if_neg hrem, if_pos hrem2, Currency.mulScalar,
      aset_alookup_eq st (g t) inner hst]
    simp [hp, hf]

/-- Full characterization of an exactly-exhausting sell in the
weighted-average ledger: the trade succeeds and the (group, symbol) key is
removed from the holdings map (and the group key too when it becomes empty). -/
theorem avgTrade_sell_exhaust (g : TradeInfo → String) (st : AvgStocks)
    (t : TradeInfo) (d : AvgEntry)
    (ht : t.trade_type = "sell")
    (hd : avgEntry st (g t) t.ric_symbol = some d)
    (hq : 0 < t.unit_quantity)
    (heq : d.unit_quantity = t.unit_quantity)
    (hp : 0 ≤ t.unit_price.value)
    (hf : 0 ≤ t.total_fees.value)
    (hnd1 : (st.map Prod.fst).Nodup)
    (hnd2 : (((alookup st (g t)).getD []).map Prod.fst).Nodup) :
    (∃ diff, (PortfolioHoldingsAvgCost.trade g st t).1 = .ok diff) ∧
    avgEntry (PortfolioHoldingsAvgCost.trade g st t).2 (g t) t.ric_symbol =
      none := by
  unfold avgEntry at hd
  cases hst : alookup st (g t) with
  | none => rw [hst] at hd; cases hd
  | some inner =>
    simp only [hst] at hd
    have htq : t.unit_quantity ≠ 0 := ne_of_gt hq
    have hdq : d.unit_quantity ≠ 0 := heq ▸ htq
    have hrem : ¬ (d.unit_quantity - t.unit_quantity < 0) := by
      rw [heq]; simp
    have hrem2 : ¬ (0 < d.unit_quantity - t.unit_quantity) := by
      rw [heq]; simp
    have hinner : ((alookup st (g t)).getD []).map Prod.fst =
        inner.map Prod.fst := by
      rw [hst]; rfl
    rw [hinner] at hnd2
    unfold PortfolioHoldingsAvgCost.trade
    rw [ht]
    rw [if_neg (show ("sell" : String) ≠ "buy" by decide), if_pos rfl]
    simp only [hst, Option.getD_some, hd, Currency.divScalar, if_neg hdq,
      if_neg htq, if_neg hrem, if_neg hrem2,
      aset_alookup_eq st (g t) inner hst]
    rw [if_neg (show ¬ ¬ (0 ≤ t.unit_price.value ∧ 0 ≤ t.total_fees.value) from
      not_not.mpr ⟨hp, hf⟩)]
    refine ⟨⟨_, rfl⟩, ?_⟩
    dsimp only
    by_cases hemp : (adel inner t.ric_symbol).isEmpty
    · rw [if_pos hemp]
      unfold avgEntry
      rw [alookup_adel_self _ _ (keys_aset_nodup st (g t) _ hnd1)]
    · rw [if_neg hemp]
      unfold avgEntry
      rw [alookup_aset_self]
      exact alookup_adel_self inner t.ric_symbol hnd2

/-- Two buys of the same symbol into the global bucket, starting from an
empty weighted-average ledger, fold into a single aggregate. -/
theorem avgTrade_two_buys (acct sym cur curf : String) (d1 d2 : Nat)
    (q1 p1 f1 q2 p2 f2 : ℚ)
    (hq1 : q1 ≠ 0) (hq2 : q2 ≠ 0)
    (hp1 : 0 ≤ p1) (hf1 : 0 ≤ f1) (hp2 : 0 ≤ p2) (hf2 : 0 ≤ f2) :
    avgEntry
      (PortfolioHoldingsAvgCost.trade (fun _ => "")
        (PortfolioHoldingsAvgCost.trade (fun _ => "") []
          ⟨"", d1, acct, sym, "buy", q1, ⟨cur, p1⟩, ⟨curf, f1⟩⟩).2
        ⟨"", d2, acct, sym, "buy", q2, ⟨cur, p2⟩, ⟨curf, f2⟩⟩).2
      "" sym =
    some ⟨⟨cur, p1 * q1 + p2 * q2⟩, ⟨curf, f1 + f2⟩, q1 + q2⟩ := by
  norm_num [PortfolioHoldingsAvgCost.trade, avgSet, avgEntry, alookup, aset,
    Currency.add, Currency.mulScalar, Currency.divScalar, hq1, hq2, hp1, hf1,
    hp2, hf2]

/-- C5: under the weighted-average strategy, buys fold into an aggregate whose
average cost is `total_cost_value / unit_quantity` (so two buys of q1 at p1
and q2 at p2 give total value p1·q1 + p2·q2 over q1 + q2 units), and a partial
sell reduces the held quantity by exactly the sold quantity while leaving the
remaining position's average cost per unit (and its currency) unchanged. -/
theorem avg_cost_blends_buys_and_sell_preserves_average :
    (∀ (acct sym cur curf : String) (d1 d2 : Nat) (q1 p1 f1 q2 p2 f2 : ℚ),
      q1 ≠ 0 → q2 ≠ 0 → 0 ≤ p1 → 0 ≤ f1 → 0 ≤ p2 → 0 ≤ f2 →
      avgEntry
        (PortfolioHoldingsAvgCost.trade (fun _ => "")
          (PortfolioHoldingsAvgCost.trade (fun _ => "") []
            ⟨"", d1, acct, sym, "buy", q1, ⟨cur, p1⟩, ⟨curf, f1⟩⟩).2
          ⟨"", d2, acct, sym, "buy", q2, ⟨cur, p2⟩, ⟨curf, f2⟩⟩).2
        "" sym =
      some ⟨⟨cur, p1 * q1 + p2 * q2⟩, ⟨curf, f1 + f2⟩, q1 + q2⟩) ∧
    (∀ (g : TradeInfo → String) (st : AvgStocks) (t : TradeInfo) (d : AvgEntry),
      t.trade_type = "sell" →
      avgEntry st (g t) t.ric_symbol = some d →
      0 < t.unit_quantity →
      t.unit_quantity < d.unit_quantity →
      0 ≤ t.unit_price.value →
      0 ≤ t.total_fees.value →
      ∃ diff e,
        (PortfolioHoldingsAvgCost.trade g st t).1 = .ok diff ∧
        avgEntry (PortfolioHoldingsAvgCost.trade g st t).2 (g t) t.ric_symbol
          = some e ∧
        e.unit_quantity = d.unit_quantity - t.unit_quantity ∧
        e.total_value.symbol = d.total_value.symbol ∧
        e.total_value.value / e.unit_quantity =
          d.total_value.value / d.unit_quantity) := by
  constructor
  · intro acct sym cur curf d1 d2 q1 p1 f1 q2 p2 f2 hq1 hq2 hp1 hf1 hp2 hf2
    exact avgTrade_two_buys acct sym cur curf d1 d2 q1 p1 f1 q2 p2 f2
      hq1 hq2 hp1 hf1 hp2 hf2
  · intro g st t d ht hd hq hlt hp hf
    have h := avgTrade_sell_partial g st t d ht hd hq hlt hp hf
    rw [h]
    refine ⟨_, _, rfl, avgEntry_avgSet_self _ _ _ _, rfl, rfl, ?_⟩
    have hne : d.unit_quantity - t.unit_quantity ≠ 0 := by
      have := sub_pos.mpr hlt
      linarith
    exact mul_div_cancel_right₀ _ hne

theorem avg_cost_blends_buys_and_sell_preserves_average_witness :
    (avgEntry
        (PortfolioHoldingsAvgCost.trade (fun _ => "")
          (PortfolioHoldingsAvgCost.trade (fun _ => "") []
            ⟨"", 1, "a", "SYM", "buy", 10, ⟨"C", 100⟩, ⟨"C", 0⟩⟩).2
          ⟨"", 2, "a", "SYM", "buy", 5, ⟨"C", 200⟩, ⟨"C", 0⟩⟩).2
        "" "SYM" =
      some ⟨⟨"C", 2000⟩, ⟨"C", 0⟩, 15⟩) ∧
    (∃ e, avgEntry
        (PortfolioHoldingsAvgCost.trade (fun _ => "")
          (PortfolioHoldingsAvgCost.trade (fun _ => "")
            (PortfolioHoldingsAvgCost.trade (fun _ => "") []
              ⟨"", 1, "a", "IVV.AX", "buy", 32, ⟨"AUD", 43921/100⟩,
               ⟨"AUD", 2995/100⟩⟩).2
            ⟨"", 2, "a", "IVV.AX", "buy", 20, ⟨"AUD", 47803/100⟩,
             ⟨"AUD", 1995/100⟩⟩).2
          ⟨"", 3, "a", "IVV.AX", "sell", 22, ⟨"AUD", 44935/100⟩,
           ⟨"AUD", 1995/100⟩⟩).2
        "" "IVV.AX" = some e ∧
      e.unit_quantity = 30 ∧
      e.total_value.symbol = "AUD" ∧
      e.total_value.value / e.unit_quantity = 590383 / 1300) := by
  constructor
  · have hA := avg_cost_blends_buys_and_sell_preserves_average.1
      "a" "SYM" "C" "C" 1 2 10 100 0 5 200 0 (by norm_num) (by norm_num)
      (by norm_num) (by norm_num) (by norm_num) (by norm_num)
    rw [hA]
    norm_num
  · have hA2 := avg_cost_blends_buys_and_sell_preserves_average.1
      "a" "IVV.AX" "AUD" "AUD" 1 2 32 (43921/100) (2995/100) 20 (47803/100)
      (1995/100) (by norm_num) (by norm_num) (by norm_num) (by norm_num)
      (by norm_num) (by norm_num)
    have hB := avg_cost_blends_buys_and_sell_preserves_average.2
      (fun _ => "")
      (PortfolioHoldingsAvgCost.trade (fun _ => "")
        (PortfolioHoldingsAvgCost.trade (fun _ => "") []
          ⟨"", 1, "a", "IVV.AX", "buy", 32, ⟨"AUD", 43921/100⟩,
           ⟨"AUD", 2995/100⟩⟩).2
        ⟨"", 2, "a", "IVV.AX", "buy", 20, ⟨"AUD", 47803/100⟩,
         ⟨"AUD", 1995/100⟩⟩).2
      ⟨"", 3, "a", "IVV.AX", "sell", 22, ⟨"AUD", 44935/100⟩,
       ⟨"AUD", 1995/100⟩⟩
      ⟨⟨"AUD", 43921/100 * 32 + 47803/100 * 20⟩,
       ⟨"AUD", 2995/100 + 1995/100⟩, 32 + 20⟩
      rfl hA2 (by norm_num) (by norm_num) (by norm_num) (by norm_num)
    obtain ⟨diff, e, h1, h2, h3, h4, h5⟩ := hB
    refine ⟨e, h2, by rw [h3]; norm_num, by rw [h4], by rw [h5]; norm_num⟩

/-- Characterization of the cash legs of any successful LIFO sell
(portfolio_holdings.py lines 150-164): when the proceeds currency equals the
fees currency the two are netted into at most one entry; only when the
currencies differ are gross proceeds and fees recorded separately. -/
theorem lifo_sell_diff_char (st : LifoStocks) (t : TradeInfo)
    (diff : LifoTradeDiff)
    (ht : t.trade_type = "sell")
    (h : (PortfolioHoldings.trade st t).1 = .ok diff) :
    ((t.unit_price.mulScalar t.unit_quantity).symbol = t.total_fees.symbol →
      (diff.acquired_currency, diff.disposed_currency) =
        (if 0 < (t.unit_price.mulScalar t.unit_quantity).value -
            t.total_fees.value then
          ([⟨(t.unit_price.mulScalar t.unit_quantity).symbol,
             (t.unit_price.mulScalar t.unit_quantity).value -
               t.total_fees.value⟩], [])
        else if (t.unit_price.mulScalar t.unit_quantity).value -
            t.total_fees.value < 0 then
          ([], [⟨(t.unit_price.mulScalar t.unit_quantity).symbol,
                 (t.unit_price.mulScalar t.unit_quantity).value -
                   t.total_fees.value⟩])
        else ([], []))) ∧
    ((t.unit_price.mulScalar t.unit_quantity).symbol ≠ t.total_fees.symbol →
      (diff.acquired_currency, diff.disposed_currency) =
        ((if 0 < (t.unit_price.mulScalar t.unit_quantity).value then
           [t.unit_price.mulScalar t.unit_quantity] else []),
         (if 0 < t.total_fees.value then [t.total_fees] else []))) := by
  unfold PortfolioHoldings.trade at h
  rw [ht, if_neg (show ("sell" : String) ≠ "buy" by decide), if_pos rfl] at h
  split at h
  · cases h
  · split at h
    · cases h
    · dsimp only at h
      split at h
      · cases h
      · split at h
        · cases h
        · split at h
          · cases h
          · split at h
            · cases h
            · dsimp only at h
              rw [Except.ok.injEq] at h
              subst h
              constructor
              · intro hsym
                dsimp only
                rw [if_pos hsym]
              · intro hsym
                dsimp only
                rw [if_neg hsym]

/-- Characterization of the cash legs of any successful weighted-average sell
(portfolio_holdings_avg_cost.py lines 138-142): gross proceeds are acquired,
fees (when positive) are disposed. -/
theorem avg_sell_diff_char (g : TradeInfo → String) (st : AvgStocks)
    (t : TradeInfo) (diff : AvgTradeDiff)
    (ht : t.trade_type = "sell")
    (h : (PortfolioHoldingsAvgCost.trade g st t).1 = .ok diff) :
    diff.acquired_currency = [t.unit_price.mulScalar t.unit_quantity] ∧
    diff.disposed_currency =
      (if 0 < t.total_fees.value then [t.total_fees] else []) := by
  unfold PortfolioHoldingsAvgCost.trade at h
  rw [ht, if_neg (show ("sell" : String) ≠ "buy" by decide), if_pos rfl] at h
  dsimp only at h
  split at h
  · cases h
  · split at h
    · cases h
    · split at h
      · cases h
      · split at h
        · cases h
        · split at h
          · cases h
          · split at h
            · cases h
            · split at h <;>
                (dsimp only at h; rw [Except.ok.injEq] at h; subst h;
                 exact ⟨rfl, rfl⟩)

/-- C8 (amended): for every successful sell, the weighted-average model
records the gross proceeds in the acquired-currency list and the fees (when
positive) in the disposed-currency list; the parcel-list model does so only
when the proceeds and fees currencies differ (and the amounts are positive) —
when they share a currency it instead records a single *net* entry
(proceeds − fees) in acquired if positive, in disposed if negative, and
nothing when zero. -/
theorem sell_cash_diff_reporting :
    (∀ (st : LifoStocks) (t : TradeInfo) (diff : LifoTradeDiff),
      t.trade_type = "sell" →
      (PortfolioHoldings.trade st t).1 = .ok diff →
      ((t.unit_price.mulScalar t.unit_quantity).symbol = t.total_fees.symbol →
        (diff.acquired_currency, diff.disposed_currency) =
          (if 0 < (t.unit_price.mulScalar t.unit_quantity).value -
              t.total_fees.value then
            ([⟨(t.unit_price.mulScalar t.unit_quantity).symbol,
               (t.unit_price.mulScalar t.unit_quantity).value -
                 t.total_fees.value⟩], [])
          else if (t.unit_price.mulScalar t.unit_quantity).value -
              t.total_fees.value < 0 then
            ([], [⟨(t.unit_price.mulScalar t.unit_quantity).symbol,
                   (t.unit_price.mulScalar t.unit_quantity).value -
                     t.total_fees.value⟩])
          else ([], []))) ∧
      ((t.unit_price.mulScalar t.unit_quantity).symbol ≠ t.total_fees.symbol →
        (diff.acquired_currency, diff.disposed_currency) =
          ((if 0 < (t.unit_price.mulScalar t.unit_quantity).value then
             [t.unit_price.mulScalar t.unit_quantity] else []),
           (if 0 < t.total_fees.value then [t.total_fees] else [])))) ∧
    (∀ (g : TradeInfo → String) (st : AvgStocks) (t : TradeInfo)
        (diff : AvgTradeDiff),
      t.trade_type = "sell" →
      (PortfolioHoldingsAvgCost.trade g st t).1 = .ok diff →
      diff.acquired_currency = [t.unit_price.mulScalar t.unit_quantity] ∧
      diff.disposed_currency =
        (if 0 < t.total_fees.value then [t.total_fees] else [])) :=
  ⟨fun st t diff ht h => lifo_sell_diff_char st t diff ht h,
   fun g st t diff ht h => avg_sell_diff_char g st t diff ht h⟩

theorem sell_cash_diff_reporting_witness :
    ((⟨[], [⟨"USD", 490⟩],
       [⟨"SYM", "acct", 1, 2, 5, ⟨"USD", 100⟩, ⟨"USD", 100⟩, ⟨"USD", 0⟩,
         ⟨"USD", 2⟩⟩], []⟩ : LifoTradeDiff).acquired_currency,
     (⟨[], [⟨"USD", 490⟩],
       [⟨"SYM", "acct", 1, 2, 5, ⟨"USD", 100⟩, ⟨"USD", 100⟩, ⟨"USD", 0⟩,
         ⟨"USD", 2⟩⟩], []⟩ : LifoTradeDiff).disposed_currency) =
      ([⟨"USD", 490⟩], []) ∧
    ((⟨[], [⟨"C", 500⟩],
       [⟨none, "SYM", none, ⟨"C", 100⟩, ⟨"C", 0⟩, 2, ⟨"C", 100⟩, ⟨"C", 2⟩,
         5⟩], [⟨"C", 10⟩]⟩ : AvgTradeDiff).acquired_currency = [⟨"C", 500⟩] ∧
     (⟨[], [⟨"C", 500⟩],
       [⟨none, "SYM", none, ⟨"C", 100⟩, ⟨"C", 0⟩, 2, ⟨"C", 100⟩, ⟨"C", 2⟩,
         5⟩], [⟨"C", 10⟩]⟩ : AvgTradeDiff).disposed_currency = [⟨"C", 10⟩]) := by
  constructor
  · have h : (PortfolioHoldings.trade
        (PortfolioHoldings.trade []
          ⟨"", 1, "acct", "SYM", "buy", 10, ⟨"USD", 100⟩, ⟨"USD", 0⟩⟩).2
        ⟨"", 2, "acct", "SYM", "sell", 5, ⟨"USD", 100⟩, ⟨"USD", 10⟩⟩).1 =
        .ok ⟨[], [⟨"USD", 490⟩],
          [⟨"SYM", "acct", 1, 2, 5, ⟨"USD", 100⟩, ⟨"USD", 100⟩, ⟨"USD", 0⟩,
            ⟨"USD", 2⟩⟩], []⟩ := by
      norm_num [PortfolioHoldings.trade, consumeRev, lifoSet, lifoEntry,
        alookup, aset, Currency.divScalar, Currency.mulScalar, mkLifoDisp,
        (show ("sell" : String) ≠ "buy" by decide)]
    have h2 := (sell_cash_diff_reporting.1 _ _ _ rfl h).1 rfl
    rw [h2]
  · have h : (PortfolioHoldingsAvgCost.trade (fun _ => "")
        [("", [("SYM", ⟨⟨"C", 1000⟩, ⟨"C", 0⟩, 10⟩)])]
        ⟨"", 2, "a", "SYM", "sell", 5, ⟨"C", 100⟩, ⟨"C", 10⟩⟩).1 =
        .ok ⟨[], [⟨"C", 500⟩],
          [⟨none, "SYM", none, ⟨"C", 100⟩, ⟨"C", 0⟩, 2, ⟨"C", 100⟩, ⟨"C", 2⟩,
            5⟩], [⟨"C", 10⟩]⟩ := by
      norm_num [PortfolioHoldingsAvgCost.trade, avgSet, avgEntry, alookup,
        aset, Currency.divScalar, Currency.mulScalar,
        (show ("sell" : String) ≠ "buy" by decide)]
    have h2 := sell_cash_diff_reporting.2 _ _ _ _ rfl h
    refine ⟨?_, ?_⟩
    · rw [h2.1]
      norm_num [Currency.mulScalar]
    · rw [h2.2]
      norm_num

/-!  ## Holdings invariants (C2) -/

theorem consumeRev_pos (t : TradeInfo) (fpu : Currency) :
    ∀ (rev : List Lot) (ytd : ℚ) (acc : List LifoDisp) (rev' : List Lot)
      (y' : ℚ) (disps : List LifoDisp),
      (∀ l ∈ rev, 0 < l.unit_quantity) →
      consumeRev t fpu rev ytd acc = .ok (rev', y', disps) →
      ∀ l ∈ rev', 0 < l.unit_quantity := by
  intro rev
  induction rev with
  | nil =>
    intro ytd acc rev' y' disps hpos h
    unfold consumeRev at h
    by_cases hy : ytd ≤ 0
    · rw [if_pos hy, Except.ok.injEq] at h
      simp only [Prod.mk.injEq] at h
      obtain ⟨h1, -, -⟩ := h
      subst h1
      simp
    · rw [if_neg hy] at h
      cases h
  | cons hd tl ih =>
    intro ytd acc rev' y' disps hpos h
    unfold consumeRev at h
    by_cases hy : ytd ≤ 0
    · rw [if_pos hy, Except.ok.injEq] at h
      simp only [Prod.mk.injEq] at h
      obtain ⟨h1, -, -⟩ := h
      subst h1
      exact hpos
    · rw [if_neg hy] at h
      dsimp only at h
      by_cases hgt : hd.unit_quantity > ytd
      · rw [if_pos hgt, Except.ok.injEq] at h
        simp only [Prod.mk.injEq] at h
        obtain ⟨h1, -, -⟩ := h
        subst h1
        intro l hl
        rcases List.mem_cons.mp hl with rfl | hl2
        · have : 0 < ytd := lt_of_not_le hy
          dsimp only
          linarith
        · exact hpos l (List.mem_cons_of_mem _ hl2)
      · rw [if_neg hgt] at h
        exact ih _ _ _ _ _
          (fun l hl => hpos l (List.mem_cons_of_mem _ hl)) h

theorem consumeRev_exhaust (t : TradeInfo) (fpu : Currency) :
    ∀ (rev : List Lot) (acc : List LifoDisp),
      (∀ l ∈ rev, 0 < l.unit_quantity) →
      ∃ disps,
        consumeRev t fpu rev ((rev.map (fun l => l.unit_quantity)).sum) acc =
          .ok ([], 0, disps) := by
  intro rev
  induction rev with
  | nil =>
    intro acc hpos
    refine ⟨acc, ?_⟩
    unfold consumeRev
    rw [if_pos (by simp)]
    simp
  | cons hd tl ih =>
    intro acc hpos
    have hhd : 0 < hd.unit_quantity := hpos hd (by simp)
    have hsum : 0 ≤ (tl.map (fun l => l.unit_quantity)).sum := by
      refine List.sum_nonneg ?_
      intro x hx
      obtain ⟨l, hl, rfl⟩ := List.mem_map.mp hx
      exact le_of_lt (hpos l (List.mem_cons_of_mem _ hl))
    have htot : ((hd :: tl).map (fun l => l.unit_quantity)).sum =
        hd.unit_quantity + (tl.map (fun l => l.unit_quantity)).sum := by
      simp
    obtain ⟨ds, hds⟩ := ih (acc ++ [mkLifoDisp t hd fpu hd.unit_quantity])
      (fun l hl => hpos l (List.mem_cons_of_mem _ hl))
    refine ⟨ds, ?_⟩
    unfold consumeRev
    rw [if_neg (by rw [htot]; intro hc; linarith)]
    dsimp only
    rw [if_neg (by rw [htot]; intro hc; simp only [gt_iff_lt] at hc; linarith)]
    rw [show ((hd :: tl).map (fun l => l.unit_quantity)).sum -
        hd.unit_quantity = (tl.map (fun l => l.unit_quantity)).sum by
      rw [htot]; ring]
    exact hds

theorem lifoEntry_lifoSet_self (st : LifoStocks) (acct sym : String)
    (lots : List Lot) :
    lifoEntry (lifoSet st acct sym lots) acct sym = some lots := by
  unfold lifoEntry lifoSet
  rw [alookup_aset_self]
  exact alookup_aset_self _ _ _

theorem lifoTrade_sell_exhaust (st : LifoStocks) (t : TradeInfo)
    (lots : List Lot)
    (ht : t.trade_type = "sell")
    (hlots : lifoEntry st t.account t.ric_symbol = some lots)
    (hpos : ∀ l ∈ lots, 0 < l.unit_quantity)
    (hsum : (lots.map (fun l => l.unit_quantity)).sum = t.unit_quantity)
    (hqt : 0 < t.unit_quantity)
    (hp : 0 ≤ t.unit_price.value)
    (hf : 0 ≤ t.total_fees.value) :
    (∃ diff, (PortfolioHoldings.trade st t).1 = .ok diff) ∧
    lifoEntry (PortfolioHoldings.trade st t).2 t.account t.ric_symbol =
      some [] := by
  have htq : t.unit_quantity ≠ 0 := ne_of_gt hqt
  have hrevpos : ∀ l ∈ lots.reverse, 0 < l.unit_quantity := by
    intro l hl
    exact hpos l (List.mem_reverse.mp hl)
  obtain ⟨ds, hds⟩ := consumeRev_exhaust t
    ⟨t.total_fees.symbol, t.total_fees.value / t.unit_quantity⟩
    lots.reverse [] hrevpos
  have hsum2 : (lots.reverse.map (fun l => l.unit_quantity)).sum =
      t.unit_quantity := by
    rw [List.map_reverse, List.sum_reverse]
    exact hsum
  rw [hsum2] at hds
  unfold PortfolioHoldings.trade
  rw [ht, if_neg (show ("sell" : String) ≠ "buy" by decide), if_pos rfl]
  simp only [hlots, Option.getD_some, Currency.divScalar, if_neg htq,
    if_neg (not_not.mpr hqt), hds]
  rw [if_neg (show ¬ ¬ (0 ≤ (t.unit_price.mulScalar t.unit_quantity).value ∧
      0 ≤ t.total_fees.value) from not_not.mpr
        ⟨by simpa [Currency.mulScalar] using
          mul_nonneg hp (le_of_lt hqt), hf⟩)]
  rw [if_neg (show ¬ ((0:ℚ) < 0) by norm_num),
    if_neg (show ¬ ((0:ℚ) < 0) by norm_num)]
  refine ⟨⟨_, rfl⟩, ?_⟩
  dsimp only
  rw [show (([] : List Lot)).reverse = [] from rfl]
  exact lifoEntry_lifoSet_self _ _ _ _

theorem avg_inv_aset (m : AvgStocks) (k : String) (v : List (String × AvgEntry))
    (hinv : ∀ p ∈ m, ∀ q ∈ p.2, 0 < q.2.unit_quantity)
    (hv : ∀ q ∈ v, 0 < q.2.unit_quantity) :
    ∀ p ∈ aset m k v, ∀ q ∈ p.2, 0 < q.2.unit_quantity := by
  intro p hp
  rcases mem_aset m k v p hp with hp2 | hp2
  · exact hinv p hp2
  · subst hp2
    exact hv

theorem avg_inv_getD (m : AvgStocks) (k : String)
    (hinv : ∀ p ∈ m, ∀ q ∈ p.2, 0 < q.2.unit_quantity) :
    ∀ q ∈ (alookup m k).getD [], 0 < q.2.unit_quantity := by
  intro q hq
  cases hk : alookup m k with
  | none => rw [hk] at hq; simp at hq
  | some inner =>
    rw [hk] at hq
    exact hinv (k, inner) (alookup_mem m k inner hk) q hq

theorem avg_inv_inner_aset (m : List (String × AvgEntry)) (sym : String)
    (e : AvgEntry)
    (hm : ∀ q ∈ m, 0 < q.2.unit_quantity)
    (he : 0 < e.unit_quantity) :
    ∀ q ∈ aset m sym e, 0 < q.2.unit_quantity := by
  intro q hq
  rcases mem_aset m sym e q hq with hq2 | hq2
  · exact hm q hq2
  · subst hq2
    exact he

theorem avg_inv_avgSet (st : AvgStocks) (g sym : String) (e : AvgEntry)
    (hinv : ∀ p ∈ st, ∀ q ∈ p.2, 0 < q.2.unit_quantity)
    (he : 0 < e.unit_quantity) :
    ∀ p ∈ avgSet st g sym e, ∀ q ∈ p.2, 0 < q.2.unit_quantity := by
  unfold avgSet
  exact avg_inv_aset st g _ hinv
    (avg_inv_inner_aset _ sym e (avg_inv_getD st g hinv) he)

theorem avg_entry_pos (st : AvgStocks) (g sym : String) (d : AvgEntry)
    (hinv : ∀ p ∈ st, ∀ q ∈ p.2, 0 < q.2.unit_quantity)
    (hd : alookup ((alookup st g).getD []) sym = some d) :
    0 < d.unit_quantity :=
  avg_inv_getD st g hinv (sym, d) (alookup_mem _ sym d hd)

theorem avgTrade_inv (g : TradeInfo → String) (st : AvgStocks)
    (t : TradeInfo) (diff : AvgTradeDiff) (st' : AvgStocks)
    (h : PortfolioHoldingsAvgCost.trade g st t = (.ok diff, st'))
    (hqt : 0 < t.unit_quantity)
    (hinv : ∀ p ∈ st, ∀ q ∈ p.2, 0 < q.2.unit_quantity) :
    ∀ p ∈ st', ∀ q ∈ p.2, 0 < q.2.unit_quantity := by
  unfold PortfolioHoldingsAvgCost.trade at h
  split at h
  · -- buy branch
    dsimp only at h
    split at h
    · -- existing entry
      rename_i d hd
      split at h
      · simp [Prod.ext_iff] at h
      · rename_i tv1 htv
        split at h
        · simp [Prod.ext_iff] at h
        · rename_i tf1 htf
          split at h
          · simp [Prod.ext_iff] at h
          · split at h
            · simp [Prod.ext_iff] at h
            · rw [Prod.mk.injEq] at h
              obtain ⟨-, h2⟩ := h
              subst h2
              have hdpos : 0 < d.unit_quantity :=
                avg_entry_pos st (g t) t.ric_symbol d hinv hd
              refine avg_inv_avgSet _ _ _ _ ?_ (by positivity)
              refine avg_inv_avgSet _ _ _ _ ?_ hdpos
              exact avg_inv_aset st (g t) _ hinv (avg_inv_getD st (g t) hinv)
    · -- fresh entry
      split at h
      · simp [Prod.ext_iff] at h
      · split at h
        · simp [Prod.ext_iff] at h
        · rw [Prod.mk.injEq] at h
          obtain ⟨-, h2⟩ := h
          subst h2
          refine avg_inv_avgSet _ _ _ _ ?_ hqt
          exact avg_inv_aset st (g t) _ hinv (avg_inv_getD st (g t) hinv)
  · split at h
    · -- sell branch
      dsimp only at h
      split at h
      · simp [Prod.ext_iff] at h
      · rename_i d hd
        split at h
        · simp [Prod.ext_iff] at h
        · split at h
          · simp [Prod.ext_iff] at h
          · split at h
            · simp [Prod.ext_iff] at h
            · split at h
              · simp [Prod.ext_iff] at h
              · split at h
                · simp [Prod.ext_iff] at h
                · split at h
                  · -- partial sell: 0 < remaining
                    rename_i hrem
                    rw [Prod.mk.injEq] at h
                    obtain ⟨-, h2⟩ := h
                    subst h2
                    refine avg_inv_avgSet _ _ _ _ ?_ hrem
                    exact avg_inv_aset st (g t) _ hinv
                      (avg_inv_getD st (g t) hinv)
                  · -- exhausting sell: entry deleted
                    rw [Prod.mk.injEq] at h
                    obtain ⟨-, h2⟩ := h
                    subst h2
                    have hstV : ∀ p ∈ aset st (g t)
                        ((alookup st (g t)).getD []),
                        ∀ q ∈ p.2, 0 < q.2.unit_quantity :=
                      avg_inv_aset st (g t) _ hinv (avg_inv_getD st (g t) hinv)
                    have hstD : ∀ p ∈ aset
                        (aset st (g t) ((alookup st (g t)).getD [])) (g t)
                        (adel ((alookup (aset st (g t)
                          ((alookup st (g t)).getD [])) (g t)).getD [])
                          t.ric_symbol),
                        ∀ q ∈ p.2, 0 < q.2.unit_quantity := by
                      refine avg_inv_aset _ _ _ hstV ?_
                      intro q hq
                      exact avg_inv_getD _ (g t) hstV q (mem_adel _ _ _ hq)
                    split
                    · intro p hp
                      exact hstD p (mem_adel _ _ _ hp)
                    · exact hstD
    · -- neither buy nor sell: state unchanged
      rw [Prod.mk.injEq] at h
      obtain ⟨-, h2⟩ := h
      subst h2
      exact hinv

theorem lifo_inv_getD (st : LifoStocks) (acct : String)
    (hinv : ∀ p ∈ st, ∀ q ∈ p.2, ∀ l ∈ q.2, 0 < l.unit_quantity) :
    ∀ q ∈ (alookup st acct).getD [], ∀ l ∈ q.2, 0 < l.unit_quantity := by
  intro q hq
  cases hk : alookup st acct with
  | none => rw [hk] at hq; simp at hq
  | some inner =>
    rw [hk] at hq
    exact hinv (acct, inner) (alookup_mem st acct inner hk) q hq

theorem lifo_inv_entry_getD (st : LifoStocks) (acct sym : String)
    (hinv : ∀ p ∈ st, ∀ q ∈ p.2, ∀ l ∈ q.2, 0 < l.unit_quantity) :
    ∀ l ∈ (lifoEntry st acct sym).getD [], 0 < l.unit_quantity := by
  intro l hl
  unfold lifoEntry at hl
  cases hk : alookup st acct with
  | none => simp only [hk] at hl; simp at hl
  | some inner =>
    simp only [hk] at hl
    cases hk2 : alookup inner sym with
    | none => rw [hk2] at hl; simp at hl
    | some lots =>
      rw [hk2] at hl
      exact hinv (acct, inner) (alookup_mem st acct inner hk) (sym, lots)
        (alookup_mem inner sym lots hk2) l hl

theorem lifo_inv_lifoSet (st : LifoStocks) (acct sym : String)
    (lots : List Lot)
    (hinv : ∀ p ∈ st, ∀ q ∈ p.2, ∀ l ∈ q.2, 0 < l.unit_quantity)
    (hl : ∀ l ∈ lots, 0 < l.unit_quantity) :
    ∀ p ∈ lifoSet st acct sym lots, ∀ q ∈ p.2, ∀ l ∈ q.2,
      0 < l.unit_quantity := by
  unfold lifoSet
  intro p hp
  rcases mem_aset _ _ _ _ hp with hp2 | hp2
  · exact hinv p hp2
  · subst hp2
    intro q hq
    rcases mem_aset _ _ _ _ hq with hq2 | hq2
    · exact lifo_inv_getD st acct hinv q hq2
    · subst hq2
      exact hl

theorem lifoTrade_inv (st : LifoStocks) (t : TradeInfo)
    (diff : LifoTradeDiff) (st' : LifoStocks)
    (h : PortfolioHoldings.trade st t = (.ok diff, st'))
    (hqt : 0 < t.unit_quantity)
    (hinv : ∀ p ∈ st, ∀ q ∈ p.2, ∀ l ∈ q.2, 0 < l.unit_quantity) :
    ∀ p ∈ st', ∀ q ∈ p.2, ∀ l ∈ q.2, 0 < l.unit_quantity := by
  unfold PortfolioHoldings.trade at h
  split at h
  · -- buy branch
    split at h
    · simp [Prod.ext_iff] at h
    · dsimp only at h
      rw [Prod.mk.injEq] at h
      obtain ⟨-, h2⟩ := h
      subst h2
      refine lifo_inv_lifoSet st t.account t.ric_symbol _ hinv ?_
      intro l hl
      rcases List.mem_append.mp hl with hl2 | hl2
      · exact lifo_inv_entry_getD st t.account t.ric_symbol hinv l hl2
      · rw [List.mem_singleton.mp hl2]
        exact hqt
  · split at h
    · -- sell branch
      dsimp only at h
      split at h
      · simp [Prod.ext_iff] at h
      · split at h
        · simp [Prod.ext_iff] at h
        · split at h
          · simp [Prod.ext_iff] at h
          · rename_i xs rev2 ytd2 disps2 hcr
            have hrevpos : ∀ l ∈
                ((lifoEntry st t.account t.ric_symbol).getD []).reverse,
                0 < l.unit_quantity := by
              intro l hl
              exact lifo_inv_entry_getD st t.account t.ric_symbol hinv l
                (List.mem_reverse.mp hl)
            have hpos' := consumeRev_pos t _ _ _ _ _ _ _ hrevpos disps2
            have hfin : ∀ p ∈ lifoSet
                (lifoSet st t.account t.ric_symbol
                  ((lifoEntry st t.account t.ric_symbol).getD []))
                t.account t.ric_symbol xs.reverse,
                ∀ q ∈ p.2, ∀ l ∈ q.2, 0 < l.unit_quantity := by
              refine lifo_inv_lifoSet _ _ _ _ ?_ ?_
              · exact lifo_inv_lifoSet st t.account t.ric_symbol _ hinv
                  (lifo_inv_entry_getD st t.account t.ric_symbol hinv)
              · intro l hl
                exact hpos' l (List.mem_reverse.mp hl)
            repeat' split at h
            all_goals
              (rw [Prod.mk.injEq] at h;
               obtain ⟨-, h2⟩ := h;
               subst h2;
               exact hfin)
    · simp [Prod.ext_iff] at h

/-- C2 (amended): for every successfully applied trade of positive quantity,
the weighted-average ledger preserves the invariant that every
(bucket, symbol) entry present in the map has `unit_quantity > 0`, and a sell
that exactly exhausts an entry removes that key from the map (given the dict
well-formedness that keys are unique); the parcel-list ledger preserves the
invariant that every individual lot has `unit_quantity > 0`, but a sell that
exactly exhausts a position leaves the (account, symbol) key *present with an
empty lot list* rather than deleting it. -/
theorem holdings_positivity_and_exhaustion_pruning :
    (∀ (g : TradeInfo → String) (st : AvgStocks) (t : TradeInfo)
        (diff : AvgTradeDiff) (st' : AvgStocks),
      PortfolioHoldingsAvgCost.trade g st t = (.ok diff, st') →
      0 < t.unit_quantity →
      (∀ p ∈ st, ∀ q ∈ p.2, 0 < q.2.unit_quantity) →
      ∀ p ∈ st', ∀ q ∈ p.2, 0 < q.2.unit_quantity) ∧
    (∀ (g : TradeInfo → String) (st : AvgStocks) (t : TradeInfo)
        (d : AvgEntry),
      t.trade_type = "sell" →
      avgEntry st (g t) t.ric_symbol = some d →
      0 < t.unit_quantity →
      d.unit_quantity = t.unit_quantity →
      0 ≤ t.unit_price.value →
      0 ≤ t.total_fees.value →
      (st.map Prod.fst).Nodup →
      (((alookup st (g t)).getD []).map Prod.fst).Nodup →
      (∃ diff, (PortfolioHoldingsAvgCost.trade g st t).1 = .ok diff) ∧
      avgEntry (PortfolioHoldingsAvgCost.trade g st t).2 (g t) t.ric_symbol =
        none) ∧
    (∀ (st : LifoStocks) (t : TradeInfo) (diff : LifoTradeDiff)
        (st' : LifoStocks),
      PortfolioHoldings.trade st t = (.ok diff, st') →
      0 < t.unit_quantity →
      (∀ p ∈ st, ∀ q ∈ p.2, ∀ l ∈ q.2, 0 < l.unit_quantity) →
      ∀ p ∈ st', ∀ q ∈ p.2, ∀ l ∈ q.2, 0 < l.unit_quantity) ∧
    (∀ (st : LifoStocks) (t : TradeInfo) (lots : List Lot),
      t.trade_type = "sell" →
      lifoEntry st t.account t.ric_symbol = some lots →
      (∀ l ∈ lots, 0 < l.unit_quantity) →
      (lots.map (fun l => l.unit_quantity)).sum = t.unit_quantity →
      0 < t.unit_quantity →
      0 ≤ t.unit_price.value →
      0 ≤ t.total_fees.value →
      (∃ diff, (PortfolioHoldings.trade st t).1 = .ok diff) ∧
      lifoEntry (PortfolioHoldings.trade st t).2 t.account t.ric_symbol =
        some []) :=
  ⟨fun g st t diff st' h hqt hinv => avgTrade_inv g st t diff st' h hqt hinv,
   fun g st t d ht hd hq heq hp hf hnd1 hnd2 =>
     avgTrade_sell_exhaust g st t d ht hd hq heq hp hf hnd1 hnd2,
   fun st t diff st' h hqt hinv => lifoTrade_inv st t diff st' h hqt hinv,
   fun st t lots ht hlots hpos hsum hqt hp hf =>
     lifoTrade_sell_exhaust st t lots ht hlots hpos hsum hqt hp hf⟩

theorem holdings_positivity_and_exhaustion_pruning_witness :
    (0 < (⟨⟨"C", 1000⟩, ⟨"C", 0⟩, 10⟩ : AvgEntry).unit_quantity) ∧
    (avgEntry (PortfolioHoldingsAvgCost.trade (fun _ => "")
        [("", [("SYM", ⟨⟨"C", 1000⟩, ⟨"C", 0⟩, 10⟩)])]
        ⟨"", 2, "a", "SYM", "sell", 10, ⟨"C", 100⟩, ⟨"C", 0⟩⟩).2 "" "SYM" =
      none) ∧
    (0 < (⟨1, 10, ⟨"C", 100⟩, ⟨"C", 0⟩⟩ : Lot).unit_quantity) ∧
    (lifoEntry (PortfolioHoldings.trade
        [("a", [("SYM", [⟨1, 10, ⟨"C", 100⟩, ⟨"C", 0⟩⟩])])]
        ⟨"", 2, "a", "SYM", "sell", 10, ⟨"C", 100⟩, ⟨"C", 0⟩⟩).2 "a" "SYM" =
      some []) := by
  refine ⟨?_, ?_, ?_, ?_⟩
  · have h : PortfolioHoldingsAvgCost.trade (fun _ => "") []
        ⟨"", 1, "a", "SYM", "buy", 10, ⟨"C", 100⟩, ⟨"C", 0⟩⟩ =
        (.ok ⟨[⟨none, "SYM", 1, ⟨"C", 100⟩, ⟨"C", 0⟩, 10⟩], [], [],
          [⟨"C", 1000⟩]⟩,
         [("", [("SYM", ⟨⟨"C", 1000⟩, ⟨"C", 0⟩, 10⟩)])]) := by
      norm_num [PortfolioHoldingsAvgCost.trade, avgSet, avgEntry, alookup,
        aset, Currency.divScalar, Currency.mulScalar]
    exact holdings_positivity_and_exhaustion_pruning.1 _ _ _ _ _ h
      (by norm_num) (by simp) ("", [("SYM", ⟨⟨"C", 1000⟩, ⟨"C", 0⟩, 10⟩)])
      (by simp) ("SYM", ⟨⟨"C", 1000⟩, ⟨"C", 0⟩, 10⟩) (by simp)
  · exact (holdings_positivity_and_exhaustion_pruning.2.1 (fun _ => "")
      [("", [("SYM", ⟨⟨"C", 1000⟩, ⟨"C", 0⟩, 10⟩)])]
      ⟨"", 2, "a", "SYM", "sell", 10, ⟨"C", 100⟩, ⟨"C", 0⟩⟩
      ⟨⟨"C", 1000⟩, ⟨"C", 0⟩, 10⟩ rfl
      (by norm_num [avgEntry, alookup]) (by norm_num) (by norm_num)
      (by norm_num) (by norm_num) (by simp) (by simp [alookup])).2
  · have h : PortfolioHoldings.trade []
        ⟨"", 1, "a", "SYM", "buy", 10, ⟨"C", 100⟩, ⟨"C", 0⟩⟩ =
        (.ok ⟨[⟨1, 10, ⟨"C", 100⟩, ⟨"C", 0⟩, "a", "SYM"⟩], [], [],
          [⟨"C", 1000⟩]⟩,
         [("a", [("SYM", [⟨1, 10, ⟨"C", 100⟩, ⟨"C", 0⟩⟩])])]) := by
      norm_num [PortfolioHoldings.trade, lifoSet, lifoEntry, alookup, aset,
        Currency.divScalar, Currency.mulScalar]
    exact holdings_positivity_and_exhaustion_pruning.2.2.1 _ _ _ _ h
      (by norm_num) (by simp)
      ("a", [("SYM", [⟨1, 10, ⟨"C", 100⟩, ⟨"C", 0⟩⟩])]) (by simp)
      ("SYM", [⟨1, 10, ⟨"C", 100⟩, ⟨"C", 0⟩⟩]) (by simp)
      ⟨1, 10, ⟨"C", 100⟩, ⟨"C", 0⟩⟩ (by simp)
  · exact (holdings_positivity_and_exhaustion_pruning.2.2.2
      [("a", [("SYM", [⟨1, 10, ⟨"C", 100⟩, ⟨"C", 0⟩⟩])])]
      ⟨"", 2, "a", "SYM", "sell", 10, ⟨"C", 100⟩, ⟨"C", 0⟩⟩
      [⟨1, 10, ⟨"C", 100⟩, ⟨"C", 0⟩⟩] rfl
      (by norm_num [lifoEntry, alookup]) (by norm_num) (by norm_num)
      (by norm_num) (by norm_num) (by norm_num)).2

/-!  ## Market data store claims (C3, C4) -/

theorem alookup_none_iff {K V : Type} [DecidableEq K]
    (m : List (K × V)) (k : K) :
    alookup m k = none ↔ k ∉ m.map Prod.fst := by
  induction m with
  | nil => simp [alookup]
  | cons hd t ih =>
    by_cases hk : k = hd.1
    · subst hk
      simp [alookup]
    · simp [alookup, hk, ih, hk]

theorem alookup_isSome_iff {K V : Type} [DecidableEq K]
    (m : List (K × V)) (k : K) :
    (alookup m k).isSome ↔ k ∈ m.map Prod.fst := by
  rw [← not_iff_not, Option.not_isSome_iff_eq_none, alookup_none_iff]

theorem mem_storedDates (st : List Row) (sym src : String) (d : Nat) :
    d ∈ storedDates st sym src ↔
      ∃ r ∈ st, r.symbol = sym ∧ r.data_source = src ∧ r.date = d := by
  unfold storedDates
  simp [List.mem_filter]
  constructor
  · rintro ⟨r, ⟨hr, h1, h2⟩, h3⟩
    exact ⟨r, hr, h1, h2, h3⟩
  · rintro ⟨r, hr, h1, h2, h3⟩
    exact ⟨r, ⟨hr, h1, h2⟩, h3⟩

theorem updateRow_fields (sym : String) (S : Finset Nat)
    (df : List (Nat × DfRow)) (r : Row) :
    (updateRow sym S df r).symbol = r.symbol ∧
    (updateRow sym S df r).date = r.date ∧
    (updateRow sym S df r).data_source = r.data_source := by
  unfold updateRow
  cases alookup df r.date with
  | none => exact ⟨rfl, rfl, rfl⟩
  | some v =>
    dsimp only
    by_cases hc : r.symbol = sym ∧ r.data_source = v.data_source ∧
      inWindow S r.date
    · rw [if_pos hc]
      exact ⟨rfl, rfl, rfl⟩
    · rw [if_neg hc]
      exact ⟨rfl, rfl, rfl⟩

theorem updateRow_eq_of_not_window (sym : String) (S : Finset Nat)
    (df : List (Nat × DfRow)) (r : Row)
    (h : ¬ inWindow S r.date) : updateRow sym S df r = r := by
  unfold updateRow
  cases alookup df r.date with
  | none => rfl
  | some v =>
    dsimp only
    rw [if_neg]
    intro hc
    exact h hc.2.2

theorem updateRow_ne_cases (sym : String) (S : Finset Nat)
    (df : List (Nat × DfRow)) (r : Row)
    (h : updateRow sym S df r ≠ r) :
    inWindow S r.date ∧ r.date ∈ df.map Prod.fst := by
  by_cases hw : inWindow S r.date
  · refine ⟨hw, ?_⟩
    by_cases hm : r.date ∈ df.map Prod.fst
    · exact hm
    · exfalso
      apply h
      unfold updateRow
      rw [(alookup_none_iff df r.date).mpr hm]
  · exact absurd (updateRow_eq_of_not_window sym S df r hw) h

/-- C3: the store upsert never modifies a stored row whose date lies outside
the five-most-recent-stored-dates window for its (symbol, source); a stored
row can change only when its date is both inside that window and present in
the pulled series; and every pulled date absent from storage is inserted as a
new row carrying the pulled values. -/
theorem upsert_immutable_outside_window (st : List Row) (sym src : String)
    (df : List (Nat × DfRow)) :
    (∀ (i : ℕ) (r : Row), st[i]? = some r →
      r.symbol = sym → r.data_source = src →
      ¬ inWindow (storedDates st sym src) r.date →
      (MarketDataStore.update_stock_timeseries_daily st sym src df)[i]? =
        some r) ∧
    (∀ (i : ℕ) (r r' : Row), st[i]? = some r →
      (MarketDataStore.update_stock_timeseries_daily st sym src df)[i]? =
        some r' →
      r' ≠ r →
      inWindow (storedDates st sym src) r.date ∧
        r.date ∈ df.map Prod.fst) ∧
    (∀ (d : Nat) (v : DfRow), alookup df d = some v →
      d ∉ storedDates st sym src →
      Row.mk sym d v.data_source v.payload ∈
        MarketDataStore.update_stock_timeseries_daily st sym src df) := by
  refine ⟨?_, ?_, ?_⟩
  · intro i r hi hsym hsrc hw
    have hi2 : i < st.length := (List.getElem?_eq_some.mp hi).1
    unfold MarketDataStore.update_stock_timeseries_daily
    rw [List.getElem?_append, if_pos (by simpa using hi2),
      List.getElem?_map, hi]
    exact congrArg some (updateRow_eq_of_not_window sym _ df r hw)
  · intro i r r' hi hi' hne
    have hi2 : i < st.length := (List.getElem?_eq_some.mp hi).1
    unfold MarketDataStore.update_stock_timeseries_daily at hi'
    rw [List.getElem?_append, if_pos (by simpa using hi2),
      List.getElem?_map, hi] at hi'
    simp only [Option.map_some', Option.some.injEq] at hi'
    subst hi'
    exact updateRow_ne_cases sym _ df r hne
  · intro d v hv hnot
    unfold MarketDataStore.update_stock_timeseries_daily
    refine List.mem_append.mpr (Or.inr ?_)
    unfold insertedRows
    refine List.mem_filterMap.mpr ⟨d, ?_, by rw [hv]; rfl⟩
    unfold missingDates
    refine List.mem_filter.mpr ⟨?_, by simpa using hnot⟩
    exact List.mem_dedup.mpr ((alookup_isSome_iff df d).mp (by rw [hv]; rfl))

theorem storedDates_append (a b : List Row) (sym src : String) :
    storedDates (a ++ b) sym src =
      storedDates a sym src ∪ storedDates b sym src := by
  ext d
  rw [Finset.mem_union, mem_storedDates, mem_storedDates, mem_storedDates]
  constructor
  · rintro ⟨r, hr, h⟩
    rcases List.mem_append.mp hr with h2 | h2
    · exact Or.inl ⟨r, h2, h⟩
    · exact Or.inr ⟨r, h2, h⟩
  · rintro (⟨r, hr, h⟩ | ⟨r, hr, h⟩)
    · exact ⟨r, List.mem_append.mpr (Or.inl hr), h⟩
    · exact ⟨r, List.mem_append.mpr (Or.inr hr), h⟩

theorem storedDates_map_updateRow (st : List Row) (sym src sym2 : String)
    (S : Finset Nat) (df : List (Nat × DfRow)) :
    storedDates (st.map (updateRow sym2 S df)) sym src =
      storedDates st sym src := by
  ext d
  rw [mem_storedDates, mem_storedDates]
  constructor
  · rintro ⟨r, hr, h1, h2, h3⟩
    obtain ⟨r0, hr0, rfl⟩ := List.mem_map.mp hr
    obtain ⟨f1, f2, f3⟩ := updateRow_fields sym2 S df r0
    exact ⟨r0, hr0, by rw [← f1]; exact h1, by rw [← f3]; exact h2,
      by rw [← f2]; exact h3⟩
  · rintro ⟨r0, hr0, h1, h2, h3⟩
    obtain ⟨f1, f2, f3⟩ := updateRow_fields sym2 S df r0
    exact ⟨updateRow sym2 S df r0, List.mem_map_of_mem _ hr0,
      by rw [f1]; exact h1, by rw [f3]; exact h2, by rw [f2]; exact h3⟩

theorem storedDates_insertedRows (sym src : String) (df : List (Nat × DfRow))
    (S : Finset Nat) (hsrc : ∀ p ∈ df, p.2.data_source = src) :
    storedDates (insertedRows sym df S) sym src =
      (df.map Prod.fst).toFinset \ S := by
  ext d
  rw [mem_storedDates, Finset.mem_sdiff, List.mem_toFinset]
  constructor
  · rintro ⟨r, hr, h1, h2, h3⟩
    obtain ⟨d0, hd0, hfm⟩ := List.mem_filterMap.mp hr
    cases hv : alookup df d0 with
    | none => rw [hv] at hfm; cases hfm
    | some v =>
      rw [hv] at hfm
      simp only [Option.map_some', Option.some.injEq] at hfm
      subst hfm
      obtain ⟨hk, hs⟩ := List.mem_filter.mp hd0
      subst h3
      exact ⟨List.mem_dedup.mp hk, by simpa using hs⟩
  · rintro ⟨hk, hs⟩
    have hsome : (alookup df d).isSome := (alookup_isSome_iff df d).mpr hk
    cases hv : alookup df d with
    | none => rw [hv] at hsome; cases hsome
    | some v =>
      refine ⟨Row.mk sym d v.data_source v.payload, ?_, rfl,
        hsrc (d, v) (alookup_mem df d v hv), rfl⟩
      refine List.mem_filterMap.mpr ⟨d, ?_, by rw [hv]; rfl⟩
      exact List.mem_filter.mpr ⟨List.mem_dedup.mpr hk, by simpa using hs⟩

theorem inWindow_mono (S T : Finset Nat) (hST : S ⊆ T) (d : Nat)
    (hdS : d ∈ S) (h : inWindow T d) : inWindow S d :=
  ⟨hdS, lt_of_le_of_lt
    (Finset.card_le_card (Finset.filter_subset_filter _ hST)) h.2⟩

theorem list_map_eq_self {α : Type} (l : List α) (f : α → α)
    (h : ∀ x ∈ l, f x = x) : l.map f = l := by
  induction l with
  | nil => rfl
  | cons hd t ih =>
    rw [List.map_cons, h hd (List.mem_cons_self hd t),
      ih (fun x hx => h x (List.mem_cons_of_mem _ hx))]

theorem storedDates_upsert (st : List Row) (sym src : String)
    (df : List (Nat × DfRow)) (hsrc : ∀ p ∈ df, p.2.data_source = src) :
    storedDates (MarketDataStore.update_stock_timeseries_daily st sym src df)
      sym src =
      storedDates st sym src ∪ (df.map Prod.fst).toFinset := by
  unfold MarketDataStore.update_stock_timeseries_daily
  rw [storedDates_append, storedDates_map_updateRow,
    storedDates_insertedRows sym src df _ hsrc,
    Finset.union_sdiff_self_eq_union]

/-- C4: re-running the upsert with the identical pulled series is a no-op:
the second call inserts no rows and every overwrite it performs inside the
revision window writes back the value already stored, so the store state is
identical to the state after a single call.  (All pulled rows carry the
provider's own source name, as the aggregator guarantees.) -/
theorem upsert_idem (st : List Row) (sym src : String)
    (df : List (Nat × DfRow))
    (hsrc : ∀ p ∈ df, p.2.data_source = src) :
    MarketDataStore.update_stock_timeseries_daily
      (MarketDataStore.update_stock_timeseries_daily st sym src df)
      sym src df =
    MarketDataStore.update_stock_timeseries_daily st sym src df := by
  have hS1 := storedDates_upsert st sym src df hsrc
  have hunf : ∀ (st0 : List Row),
      MarketDataStore.update_stock_timeseries_daily st0 sym src df =
        st0.map (updateRow sym (storedDates st0 sym src) df) ++
          insertedRows sym df (storedDates st0 sym src) := fun _ => rfl
  rw [hunf (MarketDataStore.update_stock_timeseries_daily st sym src df),
    hS1]
  have hins2 : insertedRows sym df
      (storedDates st sym src ∪ (df.map Prod.fst).toFinset) = [] := by
    unfold insertedRows missingDates
    rw [List.filter_eq_nil.mpr ?_]
    · rfl
    · intro d hd
      simp only [decide_not, Bool.not_eq_true', decide_eq_false_iff_not,
        not_not]
      exact Finset.mem_union_right _ (List.mem_toFinset.mpr
        (List.mem_dedup.mp hd))
  rw [hins2, List.append_nil]
  apply list_map_eq_self
  intro r hr
  rw [hunf st] at hr
  rcases List.mem_append.mp hr with hr1 | hr2
  · -- a row of the first call's update phase
    obtain ⟨r0, hr0, rfl⟩ := List.mem_map.mp hr1
    cases hv : alookup df r0.date with
    | none =>
      have h1 : updateRow sym (storedDates st sym src) df r0 = r0 := by
        unfold updateRow
        rw [hv]
      rw [h1]
      unfold updateRow
      rw [hv]
    | some v =>
      by_cases hc : r0.symbol = sym ∧ r0.data_source = v.data_source ∧
          inWindow (storedDates st sym src) r0.date
      · have h1 : updateRow sym (storedDates st sym src) df r0 =
            {r0 with payload := v.payload} := by
          unfold updateRow
          rw [hv]
          dsimp only
          rw [if_pos hc]
        rw [h1]
        unfold updateRow
        dsimp only
        rw [hv]
        dsimp only
        by_cases hc2 : r0.symbol = sym ∧ r0.data_source = v.data_source ∧
            inWindow (storedDates st sym src ∪ (df.map Prod.fst).toFinset)
              r0.date
        · rw [if_pos hc2]
        · rw [if_neg hc2]
      · have h1 : updateRow sym (storedDates st sym src) df r0 = r0 := by
          unfold updateRow
          rw [hv]
          dsimp only
          rw [if_neg hc]
        rw [h1]
        unfold updateRow
        rw [hv]
        dsimp only
        rw [if_neg ?_]
        intro hc2
        apply hc
        refine ⟨hc2.1, hc2.2.1, ?_⟩
        have hdS : r0.date ∈ storedDates st sym src :=
          (mem_storedDates st sym src r0.date).mpr
            ⟨r0, hr0, hc2.1,
             by rw [hc2.2.1]; exact hsrc _ (alookup_mem df r0.date v hv),
             rfl⟩
        exact inWindow_mono _ _ Finset.subset_union_left r0.date hdS hc2.2.2
  · -- a row inserted by the first call
    obtain ⟨d0, hd0, hfm⟩ := List.mem_filterMap.mp hr2
    cases hv : alookup df d0 with
    | none => rw [hv] at hfm; cases hfm
    | some v =>
      rw [hv] at hfm
      simp only [Option.map_some', Option.some.injEq] at hfm
      subst hfm
      unfold updateRow
      dsimp only
      rw [hv]
      dsimp only
      by_cases hw : inWindow
          (storedDates st sym src ∪ (df.map Prod.fst).toFinset) d0
      · rw [if_pos ⟨rfl, rfl, hw⟩]
      · rw [if_neg (fun hc => hw hc.2.2)]

theorem upsert_immutable_outside_window_witness :
    ((MarketDataStore.update_stock_timeseries_daily
      [⟨"S", 1, "src", ⟨1, 0, "USD", 1, 1, 1, 1, 1, 1, 0, 0, 1, 1⟩⟩,
       ⟨"S", 2, "src", ⟨1, 0, "USD", 2, 2, 2, 2, 2, 1, 0, 0, 1, 1⟩⟩,
       ⟨"S", 3, "src", ⟨1, 0, "USD", 3, 3, 3, 3, 3, 1, 0, 0, 1, 1⟩⟩,
       ⟨"S", 4, "src", ⟨1, 0, "USD", 4, 4, 4, 4, 4, 1, 0, 0, 1, 1⟩⟩,
       ⟨"S", 5, "src", ⟨1, 0, "USD", 5, 5, 5, 5, 5, 1, 0, 0, 1, 1⟩⟩,
       ⟨"S", 6, "src", ⟨1, 0, "USD", 6, 6, 6, 6, 6, 1, 0, 0, 1, 1⟩⟩,
       ⟨"S", 7, "src", ⟨1, 0, "USD", 7, 7, 7, 7, 7, 1, 0, 0, 1, 1⟩⟩]
      "S" "src"
      [(10, ⟨"src", ⟨1, 0, "USD", 10, 10, 10, 10, 10, 1, 0, 0, 1, 1⟩⟩), (11, ⟨"src", ⟨1, 0, "USD", 11, 11, 11, 11, 11, 1, 0, 0, 1, 1⟩⟩),
       (3, ⟨"src", ⟨1, 0, "USD", 33, 33, 33, 33, 33, 1, 0, 0, 1, 1⟩⟩)])[1]? =
      some ⟨"S", 2, "src", ⟨1, 0, "USD", 2, 2, 2, 2, 2, 1, 0, 0, 1, 1⟩⟩) ∧
    (inWindow (storedDates
      [⟨"S", 1, "src", ⟨1, 0, "USD", 1, 1, 1, 1, 1, 1, 0, 0, 1, 1⟩⟩,
       ⟨"S", 2, "src", ⟨1, 0, "USD", 2, 2, 2, 2, 2, 1, 0, 0, 1, 1⟩⟩,
       ⟨"S", 3, "src", ⟨1, 0, "USD", 3, 3, 3, 3, 3, 1, 0, 0, 1, 1⟩⟩,
       ⟨"S", 4, "src", ⟨1, 0, "USD", 4, 4, 4, 4, 4, 1, 0, 0, 1, 1⟩⟩,
       ⟨"S", 5, "src", ⟨1, 0, "USD", 5, 5, 5, 5, 5, 1, 0, 0, 1, 1⟩⟩,
       ⟨"S", 6, "src", ⟨1, 0, "USD", 6, 6, 6, 6, 6, 1, 0, 0, 1, 1⟩⟩,
       ⟨"S", 7, "src", ⟨1, 0, "USD", 7, 7, 7, 7, 7, 1, 0, 0, 1, 1⟩⟩]
      "S" "src") 3 ∧
      (3 : Nat) ∈ ([(10, ⟨"src", ⟨1, 0, "USD", 10, 10, 10, 10, 10, 1, 0, 0, 1, 1⟩⟩), (11, ⟨"src", ⟨1, 0, "USD", 11, 11, 11, 11, 11, 1, 0, 0, 1, 1⟩⟩),
       (3, ⟨"src", ⟨1, 0, "USD", 33, 33, 33, 33, 33, 1, 0, 0, 1, 1⟩⟩)] :
        List (Nat × DfRow)).map Prod.fst) ∧
    ((⟨"S", 10, "src", ⟨1, 0, "USD", 10, 10, 10, 10, 10, 1, 0, 0, 1, 1⟩⟩ : Row) ∈
      MarketDataStore.update_stock_timeseries_daily
      [⟨"S", 1, "src", ⟨1, 0, "USD", 1, 1, 1, 1, 1, 1, 0, 0, 1, 1⟩⟩,
       ⟨"S", 2, "src", ⟨1, 0, "USD", 2, 2, 2, 2, 2, 1, 0, 0, 1, 1⟩⟩,
       ⟨"S", 3, "src", ⟨1, 0, "USD", 3, 3, 3, 3, 3, 1, 0, 0, 1, 1⟩⟩,
       ⟨"S", 4, "src", ⟨1, 0, "USD", 4, 4, 4, 4, 4, 1, 0, 0, 1, 1⟩⟩,
       ⟨"S", 5, "src", ⟨1, 0, "USD", 5, 5, 5, 5, 5, 1, 0, 0, 1, 1⟩⟩,
       ⟨"S", 6, "src", ⟨1, 0, "USD", 6, 6, 6, 6, 6, 1, 0, 0, 1, 1⟩⟩,
       ⟨"S", 7, "src", ⟨1, 0, "USD", 7, 7, 7, 7, 7, 1, 0, 0, 1, 1⟩⟩]
      "S" "src"
      [(10, ⟨"src", ⟨1, 0, "USD", 10, 10, 10, 10, 10, 1, 0, 0, 1, 1⟩⟩), (11, ⟨"src", ⟨1, 0, "USD", 11, 11, 11, 11, 11, 1, 0, 0, 1, 1⟩⟩),
       (3, ⟨"src", ⟨1, 0, "USD", 33, 33, 33, 33, 33, 1, 0, 0, 1, 1⟩⟩)]) := by
  refine ⟨?_, ?_, ?_⟩
  · exact (upsert_immutable_outside_window _ "S" "src" _).1 1
      ⟨"S", 2, "src", ⟨1, 0, "USD", 2, 2, 2, 2, 2, 1, 0, 0, 1, 1⟩⟩ rfl rfl rfl (by decide)
  · exact (upsert_immutable_outside_window _ "S" "src" _).2.1 2
      ⟨"S", 3, "src", ⟨1, 0, "USD", 3, 3, 3, 3, 3, 1, 0, 0, 1, 1⟩⟩ ⟨"S", 3, "src", ⟨1, 0, "USD", 33, 33, 33, 33, 33, 1, 0, 0, 1, 1⟩⟩ rfl rfl (by decide)
  · exact (upsert_immutable_outside_window _ "S" "src" _).2.2 10
      ⟨"src", ⟨1, 0, "USD", 10, 10, 10, 10, 10, 1, 0, 0, 1, 1⟩⟩ rfl (by decide)

theorem upsert_idem_witness :
    MarketDataStore.update_stock_timeseries_daily
      (MarketDataStore.update_stock_timeseries_daily
        [⟨"S", 1, "src", ⟨1, 0, "USD", 1, 1, 1, 1, 1, 1, 0, 0, 1, 1⟩⟩,
       ⟨"S", 2, "src", ⟨1, 0, "USD", 2, 2, 2, 2, 2, 1, 0, 0, 1, 1⟩⟩,
       ⟨"S", 3, "src", ⟨1, 0, "USD", 3, 3, 3, 3, 3, 1, 0, 0, 1, 1⟩⟩,
       ⟨"S", 4, "src", ⟨1, 0, "USD", 4, 4, 4, 4, 4, 1, 0, 0, 1, 1⟩⟩,
       ⟨"S", 5, "src", ⟨1, 0, "USD", 5, 5, 5, 5, 5, 1, 0, 0, 1, 1⟩⟩,
       ⟨"S", 6, "src", ⟨1, 0, "USD", 6, 6, 6, 6, 6, 1, 0, 0, 1, 1⟩⟩,
       ⟨"S", 7, "src", ⟨1, 0, "USD", 7, 7, 7, 7, 7, 1, 0, 0, 1, 1⟩⟩]
        "S" "src"
        [(10, ⟨"src", ⟨1, 0, "USD", 10, 10, 10, 10, 10, 1, 0, 0, 1, 1⟩⟩), (11, ⟨"src", ⟨1, 0, "USD", 11, 11, 11, 11, 11, 1, 0, 0, 1, 1⟩⟩),
       (3, ⟨"src", ⟨1, 0, "USD", 33, 33, 33, 33, 33, 1, 0, 0, 1, 1⟩⟩)])
      "S" "src"
      [(10, ⟨"src", ⟨1, 0, "USD", 10, 10, 10, 10, 10, 1, 0, 0, 1, 1⟩⟩), (11, ⟨"src", ⟨1, 0, "USD", 11, 11, 11, 11, 11, 1, 0, 0, 1, 1⟩⟩),
       (3, ⟨"src", ⟨1, 0, "USD", 33, 33, 33, 33, 33, 1, 0, 0, 1, 1⟩⟩)] =
    MarketDataStore.update_stock_timeseries_daily
      [⟨"S", 1, "src", ⟨1, 0, "USD", 1, 1, 1, 1, 1, 1, 0, 0, 1, 1⟩⟩,
       ⟨"S", 2, "src", ⟨1, 0, "USD", 2, 2, 2, 2, 2, 1, 0, 0, 1, 1⟩⟩,
       ⟨"S", 3, "src", ⟨1, 0, "USD", 3, 3, 3, 3, 3, 1, 0, 0, 1, 1⟩⟩,
       ⟨"S", 4, "src", ⟨1, 0, "USD", 4, 4, 4, 4, 4, 1, 0, 0, 1, 1⟩⟩,
       ⟨"S", 5, "src", ⟨1, 0, "USD", 5, 5, 5, 5, 5, 1, 0, 0, 1, 1⟩⟩,
       ⟨"S", 6, "src", ⟨1, 0, "USD", 6, 6, 6, 6, 6, 1, 0, 0, 1, 1⟩⟩,
       ⟨"S", 7, "src", ⟨1, 0, "USD", 7, 7, 7, 7, 7, 1, 0, 0, 1, 1⟩⟩]
      "S" "src"
      [(10, ⟨"src", ⟨1, 0, "USD", 10, 10, 10, 10, 10, 1, 0, 0, 1, 1⟩⟩), (11, ⟨"src", ⟨1, 0, "USD", 11, 11, 11, 11, 11, 1, 0, 0, 1, 1⟩⟩),
       (3, ⟨"src", ⟨1, 0, "USD", 33, 33, 33, 33, 33, 1, 0, 0, 1, 1⟩⟩)] :=
  upsert_idem _ "S" "src" _ (by decide)
